import Mathlib

/-!
Verification of the clickstream generator (src/generate_clickstream.py).

Shallow embedding conventions:
* Timestamps are integers counting whole seconds (the CSV timestamps have
  second precision, and all `timedelta` arithmetic in the script adds whole
  seconds / minutes / days).  A purchase timestamp that failed
  `pd.to_datetime(errors="coerce")` is `none`.
* Python's seeded `random` module, the unseeded numpy generator used by
  `DataFrame.sample(random_state=None)`, and the seed-42 generator used by
  `delivered_orders.sample(random_state=42)` are modelled as three separate
  infinite streams of naturals (`RandStream`), each consumed at an explicit
  cursor.  `random.randint(a, b)` consumes one draw and yields a value in
  `[a, b]`; `random.choice` consumes one draw and indexes the list;
  `random.random() < p` is modelled at percent granularity.
* `uuid.uuid4()` is modelled as a fresh-natural counter (`uid`): every call
  returns the counter and bumps it, so distinct calls give distinct ids.
* The script stores `ts.isoformat(sep=" ")` in each event dict; here the
  event record keeps the integer timestamp and the serializer applies the
  same ISO formatting when building the sort key, which writes and sorts
  exactly the same strings.
-/

namespace Clickstream

/-- Row of olist_orders_dataset.csv after column projection; the purchase
timestamp is `none` when pd.to_datetime(errors="coerce") failed to parse. -/
structure OrderRow where
  order_id : String
  customer_id : String
  order_status : String
  order_purchase_timestamp : Option Int
deriving DecidableEq, Repr, Inhabited

/-- Row of olist_order_items_dataset.csv after column projection. -/
structure ItemRow where
  order_id : String
  product_id : String
deriving DecidableEq, Repr, Inhabited

/-- Row of olist_products_dataset.csv after column projection. -/
structure ProductRow where
  product_id : String
  product_category_name : String
deriving DecidableEq, Repr, Inhabited

/-- Row of olist_customers_dataset.csv after column projection. -/
structure CustomerRow where
  customer_id : String
  customer_unique_id : String
  customer_city : String
  customer_state : String
deriving DecidableEq, Repr, Inhabited

/-- Result row of orders.merge(customers, on="customer_id", how="left"):
city/state are `none` when no customer row matched. -/
structure MergedOrder where
  order_id : String
  customer_id : String
  order_status : String
  order_purchase_timestamp : Option Int
  customer_city : Option String
  customer_state : Option String
deriving DecidableEq, Repr, Inhabited

/-- Result row of order_items.merge(products, on="product_id", how="left"). -/
structure ItemMerged where
  order_id : String
  product_id : String
  product_category_name : Option String
deriving DecidableEq, Repr, Inhabited

/-- Left outer join of orders with customers on customer_id (pandas merge:
each left row pairs with every matching right row, or survives alone with
missing city/state when nothing matches). -/
def mergeOrdersCustomers (orders : List OrderRow) (customers : List CustomerRow) :
    List MergedOrder :=
  orders.flatMap fun o =>
    match customers.filter (fun c => c.customer_id == o.customer_id) with
    | [] => [⟨o.order_id, o.customer_id, o.order_status, o.order_purchase_timestamp,
             none, none⟩]
    | c :: cs => (c :: cs).map fun c' =>
        ⟨o.order_id, o.customer_id, o.order_status, o.order_purchase_timestamp,
         some c'.customer_city, some c'.customer_state⟩

/-- Expansion of a single order-item row under the left outer join with
products on product_id. -/
def itemJoin (products : List ProductRow) (it : ItemRow) : List ItemMerged :=
  match products.filter (fun p => p.product_id == it.product_id) with
  | [] => [⟨it.order_id, it.product_id, none⟩]
  | p :: ps => (p :: ps).map fun p' =>
      ⟨it.order_id, it.product_id, some p'.product_category_name⟩

/-- Left outer join of order_items with products on product_id
(order_items_sample in the script). -/
def order_items_sample (items : List ItemRow) (products : List ProductRow) :
    List ItemMerged :=
  items.flatMap (itemJoin products)

/-- delivered_orders: rows with order_status == "delivered" whose purchase
timestamp parsed (dropna on order_purchase_timestamp). -/
def deliveredOrders (orders : List MergedOrder) : List MergedOrder :=
  (orders.filter (fun o => o.order_status == "delivered")).filter
    (fun o => o.order_purchase_timestamp.isSome)

/-- The script's tunable constants MAX_PURCHASE_SESSIONS and
NUM_NON_CONV_SESSIONS (10000 and 8000 in the source). -/
structure Config where
  maxPurchaseSessions : Nat
  numNonConvSessions : Nat
deriving DecidableEq, Repr

/-- The constants as set in the source file. -/
def defaultConfig : Config := ⟨10000, 8000⟩

/-- An infinite stream of raw random draws. -/
abbrev RandStream : Type := Nat → Nat

/-- random.randint(lo, hi): inclusive bounds; consumes one draw. -/
def randint (lo hi : Nat) (s : RandStream) (i : Nat) : Nat × Nat :=
  (lo + s i % (hi + 1 - lo), i + 1)

/-- random.choice on a list of strings; consumes one draw. -/
def choice (l : List String) (s : RandStream) (i : Nat) : String × Nat :=
  (l.getD (s i % l.length) "", i + 1)

/-- random.random() modelled at percent granularity: a draw in [0, 100). -/
def randPct (s : RandStream) (i : Nat) : Nat × Nat :=
  (s i % 100, i + 1)

/-- DataFrame.sample(n=k): k distinct rows drawn without replacement (all
rows when k exceeds the length), in drawn order; consumes one draw per row. -/
def sampleWR {α : Type} : List α → Nat → RandStream → Nat → List α × Nat
  | _, 0, _, i => ([], i)
  | [], _ + 1, _, i => ([], i)
  | x :: xs, k + 1, s, i =>
      let j := s i % (x :: xs).length
      let res := sampleWR ((x :: xs).eraseIdx j) k s (i + 1)
      ((x :: xs).getD j x :: res.1, res.2)

def device_types : List String := ["desktop", "mobile", "tablet"]

def traffic_sources : List String := ["direct", "seo", "ads", "email", "social"]

/-- One generated clickstream event (one output row).  event_id and
session_id are uuid4 values, modelled as fresh naturals; event_ts keeps the
integer timestamp whose ISO rendering the script stores. -/
structure Event where
  event_id : Nat
  session_id : Nat
  customer_id : String
  event_type : String
  event_ts : Int
  product_id : String
  order_id : String
  device_type : String
  traffic_source : String
  is_authenticated : Nat
  customer_city : String
  customer_state : String
deriving DecidableEq, Repr, Inhabited

/-- make_event from the script: fills the optional fields with "" and
serializes is_authenticated as 1/0; draws a fresh uuid4 for event_id
(returns the bumped uid counter). -/
def make_event (uid : Nat) (event_type : String) (session_id : Nat) (ts : Int)
    (customer_id : Option String) (product_id : Option String)
    (order_id : Option String) (city : Option String) (state : Option String)
    (is_auth : Bool) (traffic_source : Option String)
    (device_type : Option String) : Event × Nat :=
  ({ event_id := uid
     session_id := session_id
     customer_id := customer_id.getD ""
     event_type := event_type
     event_ts := ts
     product_id := product_id.getD ""
     order_id := order_id.getD ""
     device_type := device_type.getD ""
     traffic_source := traffic_source.getD ""
     is_authenticated := if is_auth then 1 else 0
     customer_city := city.getD ""
     customer_state := state.getD "" }, uid + 1)

/-- Cursor state of the three random sources and the uuid counter. -/
structure RunState where
  uid : Nat
  py : Nat
  np : Nat
deriving DecidableEq, Repr

/-- Inner loop of the purchase funnel: one view_product event per sampled
order item, each at the advancing clock, advancing it by randint(5, 40)
seconds after each event.  Returns (events, clock, py cursor, uid). -/
def viewLoop (pyS : RandStream) (sess_id : Nat) (customer_id : String)
    (city state : Option String) (source device : String) :
    List ItemMerged → Int → Nat → Nat → List Event × Int × Nat × Nat
  | [], cur, py, uid => ([], cur, py, uid)
  | r :: rs, cur, py, uid =>
      let eu := make_event uid "view_product" sess_id cur (some customer_id)
        (some r.product_id) none city state true (some source) (some device)
      let ip := randint 5 40 pyS py
      let rest := viewLoop pyS sess_id customer_id city state source device
        rs (cur + (ip.1 : Int)) ip.2 eu.2
      (eu.1 :: rest.1, rest.2)

/-- Loop body of the purchase-funnel phase for a single delivered order:
skip silently when the order has no order items, otherwise emit one session
page_view / view_product* / add_to_cart / checkout / purchase. -/
def funnelOrder (itemsTable : List ItemMerged) (pyS npS : RandStream)
    (o : MergedOrder) (st : RunState) : Option (List Event × RunState) :=
  let oi := itemsTable.filter (fun r => r.order_id == o.order_id)
  if oi.isEmpty then none
  else
    let sess_id := st.uid
    let dv := choice device_types pyS st.py
    let sv := choice traffic_sources pyS dv.2
    let samp := sampleWR oi (min 3 oi.length) npS st.np
    let purchase_time := o.order_purchase_timestamp.getD 0
    let off := randint 5 40 pyS sv.2
    let base_time := purchase_time - 60 * (off.1 : Int)
    let e1 := make_event (st.uid + 1) "page_view" sess_id base_time
      (some o.customer_id) none none o.customer_city o.customer_state true
      (some sv.1) (some dv.1)
    let i1 := randint 5 40 pyS off.2
    let vl := viewLoop pyS sess_id o.customer_id o.customer_city
      o.customer_state sv.1 dv.1 samp.1 (base_time + (i1.1 : Int)) i1.2 e1.2
    let firstPid := (samp.1.headD ⟨o.order_id, "", none⟩).product_id
    let e2 := make_event vl.2.2.2 "add_to_cart" sess_id vl.2.1
      (some o.customer_id) (some firstPid) none o.customer_city
      o.customer_state true (some sv.1) (some dv.1)
    let i2 := randint 5 40 pyS vl.2.2.1
    let e3 := make_event e2.2 "checkout" sess_id (vl.2.1 + (i2.1 : Int))
      (some o.customer_id) none none o.customer_city o.customer_state true
      (some sv.1) (some dv.1)
    let e4 := make_event e3.2 "purchase" sess_id purchase_time
      (some o.customer_id) none (some o.order_id) o.customer_city
      o.customer_state true (some sv.1) (some dv.1)
    some (e1.1 :: vl.1 ++ [e2.1, e3.1, e4.1], ⟨e4.2, i2.2, samp.2⟩)

/-- The purchase-funnel phase: iterate over the selected delivered orders,
collecting one session (one contiguous event block) per order that has
order items. -/
def funnelPhase (itemsTable : List ItemMerged) (pyS npS : RandStream) :
    List MergedOrder → RunState → List (List Event) × RunState
  | [], st => ([], st)
  | o :: rest, st =>
      match funnelOrder itemsTable pyS npS o st with
      | none => funnelPhase itemsTable pyS npS rest st
      | some (sess, st') =>
          let r := funnelPhase itemsTable pyS npS rest st'
          (sess :: r.1, r.2)

/-- Inner loop of a browsing session: per step draw the event type by the
weighted thresholds 0.4 / 0.75, pick a random product for the two product
event kinds, and advance the clock by randint(5, 60) seconds. -/
def stepLoop (pyS : RandStream) (product_ids : List String) (sess_id : Nat)
    (customer_id : Option String) (city state : Option String)
    (is_auth : Bool) (source device : String) :
    Nat → Int → Nat → Nat → List Event × Int × Nat × Nat
  | 0, cur, py, uid => ([], cur, py, uid)
  | steps + 1, cur, py, uid =>
      let rp := randPct pyS py
      let tpp : String × Option String × Nat :=
        if rp.1 < 40 then ("page_view", none, rp.2)
        else if rp.1 < 75 then
          let pv := choice product_ids pyS rp.2
          ("view_product", some pv.1, pv.2)
        else
          let pv := choice product_ids pyS rp.2
          ("add_to_cart", some pv.1, pv.2)
      let eu := make_event uid tpp.1 sess_id cur customer_id tpp.2.1 none
        city state is_auth (some source) (some device)
      let ip := randint 5 60 pyS tpp.2.2
      let rest := stepLoop pyS product_ids sess_id customer_id city state
        is_auth source device steps (cur + (ip.1 : Int)) ip.2 eu.2
      (eu.1 :: rest.1, rest.2)

/-- One non-conversion browsing session: sample a base order to anchor the
base time, draw the session constants, optionally authenticate (prob 0.4)
and look up the customer's city/state, then walk randint(2, 6) steps. -/
def browsingSession (pyS npS : RandStream) (baseSource : List MergedOrder)
    (customers : List CustomerRow) (customers_list : List String)
    (product_ids : List String) (st : RunState) : List Event × RunState :=
  let bo := sampleWR baseSource 1 npS st.np
  let base_order := bo.1.headD ⟨"", "", "", none, none, none⟩
  let dd := randint 1 60 pyS st.py
  let dm := randint 0 1440 pyS dd.2
  let base_time := base_order.order_purchase_timestamp.getD 0 -
    (86400 * (dd.1 : Int) + 60 * (dm.1 : Int))
  let sess_id := st.uid
  let dv := choice device_types pyS dm.2
  let sv := choice traffic_sources pyS dv.2
  let rp := randPct pyS sv.2
  let is_auth := rp.1 < 40
  let ccs : Option String × Option String × Option String × Nat :=
    if is_auth && !customers_list.isEmpty then
      let cv := choice customers_list pyS rp.2
      match customers.filter (fun c => c.customer_id == cv.1) with
      | [] => (some cv.1, none, none, cv.2)
      | c :: _ => (some cv.1, some c.customer_city, some c.customer_state, cv.2)
    else (none, none, none, rp.2)
  let sc := randint 2 6 pyS ccs.2.2.2
  let sl := stepLoop pyS product_ids sess_id ccs.1 ccs.2.1 ccs.2.2.1 is_auth
    sv.1 dv.1 sc.1 base_time sc.2 (st.uid + 1)
  (sl.1, ⟨sl.2.2.2, sl.2.2.1, bo.2⟩)

/-- The browsing phase: NUM_NON_CONV_SESSIONS independent sessions. -/
def browsingPhase (pyS npS : RandStream) (baseSource : List MergedOrder)
    (customers : List CustomerRow) (customers_list : List String)
    (product_ids : List String) :
    Nat → RunState → List (List Event) × RunState
  | 0, st => ([], st)
  | n + 1, st =>
      let s1 := browsingSession pyS npS baseSource customers customers_list
        product_ids st
      let r := browsingPhase pyS npS baseSource customers customers_list
        product_ids n s1.2
      (s1.1 :: r.1, r.2)

/-! ### Serializer: ISO-8601 formatting of the timestamp and the final sort

datetime.isoformat(sep=" ") on a whole-second datetime renders
"YYYY-MM-DD HH:MM:SS".  The civil date is recovered from the day number by
the standard proleptic-Gregorian conversion (the algorithm used by every
days-to-civil implementation); timestamps count seconds since 1970-01-01. -/

/-- Era subexpression of the days-to-civil-date conversion (days shifted so
day 0 is 0000-03-01). -/
def eraOf (z : Nat) : Nat := (z + 719468) / 146097

/-- Day-of-era subexpression of the days-to-civil-date conversion. -/
def doeOf (z : Nat) : Nat := (z + 719468) % 146097

/-- Year-of-era from the day-of-era. -/
def yoeF (doe : Nat) : Nat :=
  (doe - doe / 1460 + doe / 36524 - doe / 146096) / 365

/-- Day-of-year (March-based) from the day-of-era. -/
def doyF (doe : Nat) : Nat :=
  doe - (365 * yoeF doe + yoeF doe / 4 - yoeF doe / 100)

/-- March-based month index from the day-of-year. -/
def mpF (doy : Nat) : Nat := (5 * doy + 2) / 153

/-- Day of month from the day-of-year. -/
def dayF (doy : Nat) : Nat := doy - (153 * mpF doy + 2) / 5 + 1

/-- Civil month from the day-of-year. -/
def monF (doy : Nat) : Nat := if mpF doy < 10 then mpF doy + 3 else mpF doy - 9

/-- Civil year of the day number z (days since 1970-01-01). -/
def civilY (z : Nat) : Nat :=
  yoeF (doeOf z) + 400 * eraOf z + (if monF (doyF (doeOf z)) ≤ 2 then 1 else 0)

/-- Civil month of the day number z. -/
def civilM (z : Nat) : Nat := monF (doyF (doeOf z))

/-- Civil day-of-month of the day number z. -/
def civilD (z : Nat) : Nat := dayF (doyF (doeOf z))

/-- Fixed-width zero-padded decimal digits of n (most significant first). -/
def pad : Nat → Nat → List Char
  | 0, _ => []
  | w + 1, n => Nat.digitChar (n / 10 ^ w) :: pad w (n % 10 ^ w)

/-- Character list of isoformat(sep=" ") for a nonnegative whole-second
timestamp: "YYYY-MM-DD HH:MM:SS". -/
def isoChars (t : Nat) : List Char :=
  pad 4 (civilY (t / 86400)) ++
    '-' :: pad 2 (civilM (t / 86400)) ++
    '-' :: pad 2 (civilD (t / 86400)) ++
    ' ' :: pad 2 (t % 86400 / 3600) ++
    ':' :: pad 2 (t % 86400 % 3600 / 60) ++
    ':' :: pad 2 (t % 86400 % 60)

/-- ts.isoformat(sep=" ") as stored in the event dict.  The script's data
lives between 2016 and 2018; timestamps before 1970 are outside the range
this embedding formats faithfully and are clamped. -/
def isoformat (t : Int) : String := ⟨isoChars t.toNat⟩

/-- Exclusive upper bound of the timestamps this formatting handles
(10000-01-01 00:00:00, the end of Python's datetime year range). -/
def MAXTS : Int := 253402300800

/-- Kernel-computable lexicographic comparison of character lists by code
point, the order in which pandas sorts the event_ts strings (proved below
to agree with the String order). -/
def lexLe : List Char → List Char → Bool
  | [], _ => true
  | _ :: _, [] => false
  | a :: as, b :: bs =>
      if a.toNat < b.toNat then true
      else if b.toNat < a.toNat then false else lexLe as bs

/-- Sort key of an event row: the characters of its formatted timestamp. -/
def tsKey (e : Event) : List Char := (isoformat e.event_ts).toList

/-- Row order used by events_df.sort_values("event_ts"): lexicographic
comparison of the formatted timestamp strings. -/
def tsLe (a b : Event) : Prop := lexLe (tsKey a) (tsKey b) = true

instance : DecidableRel tsLe := fun a b =>
  inferInstanceAs (Decidable (lexLe (tsKey a) (tsKey b) = true))

theorem lexLe_total : ∀ a b : List Char, lexLe a b = true ∨ lexLe b a = true
  | [], _ => by left; rfl
  | _ :: _, [] => by right; rfl
  | a :: as, b :: bs => by
      by_cases h1 : a.toNat < b.toNat
      · left; simp [lexLe, h1]
      · by_cases h2 : b.toNat < a.toNat
        · right; simp [lexLe, h2]
        · rcases lexLe_total as bs with h | h
          · left; simpa [lexLe, h1, h2] using h
          · right; simpa [lexLe, h1, h2] using h

theorem lexLe_trans : ∀ a b c : List Char,
    lexLe a b = true → lexLe b c = true → lexLe a c = true
  | [], _, _ => by intro _ _; rfl
  | _ :: _, [], _ => by intro hab _; simp [lexLe] at hab
  | _ :: _, _ :: _, [] => by intro _ hbc; simp [lexLe] at hbc
  | a :: as, b :: bs, c :: cs => by
      intro hab hbc
      simp only [lexLe] at hab hbc ⊢
      by_cases h1 : a.toNat < b.toNat
      · by_cases h3 : b.toNat < c.toNat
        · rw [if_pos (show a.toNat < c.toNat by omega)]
        · rw [if_neg h3] at hbc
          by_cases h4 : c.toNat < b.toNat
          · rw [if_pos h4] at hbc
            exact absurd hbc (by simp)
          · rw [if_pos (show a.toNat < c.toNat by omega)]
      · rw [if_neg h1] at hab
        by_cases h2 : b.toNat < a.toNat
        · rw [if_pos h2] at hab
          exact absurd hab (by simp)
        · rw [if_neg h2] at hab
          by_cases h3 : b.toNat < c.toNat
          · rw [if_pos (show a.toNat < c.toNat by omega)]
          · rw [if_neg h3] at hbc
            by_cases h4 : c.toNat < b.toNat
            · rw [if_pos h4] at hbc
              exact absurd hbc (by simp)
            · rw [if_neg h4] at hbc
              rw [if_neg (show ¬a.toNat < c.toNat by omega),
                if_neg (show ¬c.toNat < a.toNat by omega)]
              exact lexLe_trans as bs cs hab hbc

instance : IsTotal Event tsLe := ⟨fun a b => lexLe_total (tsKey a) (tsKey b)⟩

instance : IsTrans Event tsLe :=
  ⟨fun a b c => lexLe_trans (tsKey a) (tsKey b) (tsKey c)⟩

/-- Serializer: events_df.sort_values("event_ts") — sort every generated
event ascending by its formatted timestamp string.  pandas uses the
default kind, quicksort, which guarantees only a permutation of the rows
that is non-decreasing in the key: it is not a stable sort, so the
relative order of equal keys is not specified.  The pipeline embedding
needs one executable representative of that contract and uses
insertionSort as the stand-in; every sortedness result below is proved
against the contract (sortValuesSpec), so it holds for any output the
program's sort may produce. -/
def serialize (events : List Event) : List Event :=
  events.insertionSort tsLe

/-- The full guarantee pandas sort_values("event_ts") (default
kind='quicksort') gives about its output: a permutation of the rows that
is non-decreasing in the string key — and nothing about the relative
order of rows with equal keys. -/
def sortValuesSpec (evs out : List Event) : Prop :=
  List.Perm out evs ∧ out.Pairwise tsLe

instance (evs out : List Event) : Decidable (sortValuesSpec evs out) :=
  inferInstanceAs (Decidable (List.Perm out evs ∧ out.Pairwise tsLe))

/-- The insertionSort stand-in does satisfy the sort contract. -/
theorem serialize_sortValues (evs : List Event) :
    sortValuesSpec evs (serialize evs) :=
  ⟨List.perm_insertionSort tsLe evs, List.sorted_insertionSort tsLe evs⟩

/-- The four input tables. -/
structure Inputs where
  orders : List OrderRow
  order_items : List ItemRow
  products : List ProductRow
  customers : List CustomerRow
deriving DecidableEq, Repr

/-- products["product_id"].unique().tolist(). -/
def productIds (inp : Inputs) : List String :=
  (inp.products.map (fun p => p.product_id)).dedup

/-- customers["customer_id"].unique().tolist(). -/
def customersList (inp : Inputs) : List String :=
  (inp.customers.map (fun c => c.customer_id)).dedup

/-- orders after the customer merge. -/
def mergedOrders (inp : Inputs) : List MergedOrder :=
  mergeOrdersCustomers inp.orders inp.customers

/-- delivered_orders before the cap. -/
def delivered (inp : Inputs) : List MergedOrder :=
  deliveredOrders (mergedOrders inp)

/-- delivered_orders after the MAX_PURCHASE_SESSIONS cap (a seed-42 sample
when over the cap; pdS is the stream of that fixed-seed generator). -/
def cappedDelivered (inp : Inputs) (cfg : Config) (pdS : RandStream) :
    List MergedOrder :=
  if cfg.maxPurchaseSessions < (delivered inp).length then
    (sampleWR (delivered inp) cfg.maxPurchaseSessions pdS 0).1
  else delivered inp

/-- base_orders_source: delivered orders when any exist, else all orders. -/
def baseOrdersSource (inp : Inputs) (cfg : Config) (pdS : RandStream) :
    List MergedOrder :=
  if (cappedDelivered inp cfg pdS).isEmpty then mergedOrders inp
  else cappedDelivered inp cfg pdS

/-- The error message of the RuntimeError raised on an empty filter result. -/
def noDeliveredMsg : String := "No delivered orders found. Check your CSV content."

/-- The funnel phase as run by the script (uuid counter and stream cursors
start at zero at program start). -/
def funnelRun (inp : Inputs) (cfg : Config) (pyS npS pdS : RandStream) :
    List (List Event) × RunState :=
  funnelPhase (order_items_sample inp.order_items inp.products) pyS npS
    (cappedDelivered inp cfg pdS) ⟨0, 0, 0⟩

/-- The whole script: load/join, filter delivered orders (abort when none),
cap, run both generator phases, sort and emit.  The Except.error value
models the RuntimeError abort before any event generation. -/
def pipeline (inp : Inputs) (cfg : Config) (pyS npS pdS : RandStream) :
    Except String (List Event) :=
  if (delivered inp).isEmpty then .error noDeliveredMsg
  else
    let fr := funnelRun inp cfg pyS npS pdS
    let br := browsingPhase pyS npS (baseOrdersSource inp cfg pdS)
      inp.customers (customersList inp) (productIds inp)
      cfg.numNonConvSessions fr.2
    .ok (serialize ((fr.1 ++ br.1).flatten))

/-! ### Basic lemmas about the random primitives and the joins -/

theorem randint_fst_lower (lo hi : Nat) (s : RandStream) (i : Nat) :
    lo ≤ (randint lo hi s i).1 := by
  simp [randint]

theorem randint_fst_upper (lo hi : Nat) (s : RandStream) (i : Nat)
    (h : lo ≤ hi) : (randint lo hi s i).1 ≤ hi := by
  have h2 : s i % (hi + 1 - lo) < hi + 1 - lo := Nat.mod_lt _ (by omega)
  simp only [randint]
  omega

theorem getD_mem {α : Type} (l : List α) (j : Nat) (d : α) (h : j < l.length) :
    l.getD j d ∈ l := by
  rw [List.getD_eq_getElem?_getD, List.getElem?_eq_getElem h]
  exact List.getElem_mem h

theorem choice_mem (l : List String) (s : RandStream) (i : Nat)
    (h : l ≠ []) : (choice l s i).1 ∈ l := by
  have hl : 0 < l.length := List.length_pos.mpr h
  exact getD_mem l _ "" (Nat.mod_lt _ hl)

theorem sampleWR_length {α : Type} (k : Nat) :
    ∀ (l : List α) (s : RandStream) (i : Nat),
      ((sampleWR l k s i).1).length = min k l.length := by
  induction k with
  | zero => intro l s i; simp [sampleWR]
  | succ k ih =>
      intro l s i
      match l with
      | [] => simp [sampleWR]
      | x :: xs =>
          have hj : s i % (xs.length + 1) < xs.length + 1 :=
            Nat.mod_lt _ (by omega)
          have hlen : ((x :: xs).eraseIdx (s i % (xs.length + 1))).length =
              xs.length := by
            rw [List.length_eraseIdx]
            simp only [List.length_cons]
            rw [if_pos hj]
            omega
          simp only [sampleWR, List.length_cons, ih, hlen]
          omega

theorem sampleWR_cursor {α : Type} (k : Nat) :
    ∀ (l : List α) (s : RandStream) (i : Nat),
      (sampleWR l k s i).2 = i + min k l.length := by
  induction k with
  | zero => intro l s i; simp [sampleWR]
  | succ k ih =>
      intro l s i
      match l with
      | [] => simp [sampleWR]
      | x :: xs =>
          have hj : s i % (xs.length + 1) < xs.length + 1 :=
            Nat.mod_lt _ (by omega)
          have hlen : ((x :: xs).eraseIdx (s i % (xs.length + 1))).length =
              xs.length := by
            rw [List.length_eraseIdx]
            simp only [List.length_cons]
            rw [if_pos hj]
            omega
          simp only [sampleWR, List.length_cons, ih, hlen]
          omega

theorem sampleWR_subset {α : Type} (k : Nat) :
    ∀ (l : List α) (s : RandStream) (i : Nat) (x : α),
      x ∈ (sampleWR l k s i).1 → x ∈ l := by
  induction k with
  | zero => intro l s i x hx; simp [sampleWR] at hx
  | succ k ih =>
      intro l s i x hx
      match l with
      | [] => simp [sampleWR] at hx
      | y :: ys =>
          have hj : s i % (y :: ys).length < (y :: ys).length :=
            Nat.mod_lt _ (by simp)
          simp only [sampleWR, List.mem_cons] at hx
          rcases hx with hx | hx
          · rw [hx]; exact getD_mem _ _ _ hj
          · exact List.mem_of_mem_eraseIdx (ih _ s (i + 1) x hx)

theorem itemJoin_order_id (products : List ProductRow) (it : ItemRow) :
    ∀ r ∈ itemJoin products it, r.order_id = it.order_id := by
  intro r hr
  unfold itemJoin at hr
  split at hr
  · simp at hr; rw [hr]
  · simp only [List.mem_map] at hr
    obtain ⟨a, -, ha⟩ := hr
    rw [← ha]

theorem itemJoin_ne_nil (products : List ProductRow) (it : ItemRow) :
    itemJoin products it ≠ [] := by
  unfold itemJoin
  split <;> simp

/-- Filtering the joined order-items table by order id equals joining the
filtered raw order-items table. -/
theorem order_items_sample_filter (items : List ItemRow)
    (products : List ProductRow) (oid : String) :
    (order_items_sample items products).filter (fun r => r.order_id == oid) =
      order_items_sample (items.filter (fun it => it.order_id == oid)) products := by
  induction items with
  | nil => simp [order_items_sample]
  | cons it its ih =>
      simp only [order_items_sample, List.flatMap_cons, List.filter_append,
        List.filter_cons] at ih ⊢
      by_cases h : it.order_id == oid
      · rw [if_pos h, List.flatMap_cons]
        have h1 : (itemJoin products it).filter (fun r => r.order_id == oid) =
            itemJoin products it :=
          List.filter_eq_self.mpr fun r hr => by
            simpa [itemJoin_order_id products it r hr] using h
        rw [h1, ih]
      · rw [if_neg h]
        have : (itemJoin products it).filter (fun r => r.order_id == oid) = [] := by
          apply List.filter_eq_nil_iff.mpr
          intro r hr
          simpa [itemJoin_order_id products it r hr] using h
        rw [this, List.nil_append, ih]

/-- When a table is keyed by product_id, a filter on one key value keeps at
most one row. -/
theorem filter_by_key_length (products : List ProductRow) (x : String)
    (hnd : (products.map (fun p => p.product_id)).Nodup) :
    (products.filter (fun p => p.product_id == x)).length ≤ 1 := by
  induction products with
  | nil => simp
  | cons q qs ih =>
      simp only [List.map_cons, List.nodup_cons] at hnd
      rw [List.filter_cons]
      by_cases hq : q.product_id == x
      · rw [if_pos hq]
        have hnil : qs.filter (fun p => p.product_id == x) = [] := by
          apply List.filter_eq_nil_iff.mpr
          intro r hr hrx
          apply hnd.1
          simp only [beq_iff_eq] at hq hrx
          rw [hq, ← hrx]
          exact List.mem_map_of_mem _ hr
        rw [hnil]; simp
      · rw [if_neg hq]; exact ih hnd.2

/-- When product_id is a key of the products table, each order-item row
expands to exactly one joined row. -/
theorem itemJoin_length (products : List ProductRow) (it : ItemRow)
    (hnd : (products.map (fun p => p.product_id)).Nodup) :
    (itemJoin products it).length = 1 := by
  have hle := filter_by_key_length products it.product_id hnd
  unfold itemJoin
  split
  · simp
  · rename_i p ps hmatch
    rw [hmatch] at hle
    simp only [List.length_cons, List.length_map] at hle ⊢
    omega

theorem order_items_sample_length (items : List ItemRow)
    (products : List ProductRow)
    (hnd : (products.map (fun p => p.product_id)).Nodup) :
    (order_items_sample items products).length = items.length := by
  induction items with
  | nil => simp [order_items_sample]
  | cons it its ih =>
      simp only [order_items_sample, List.flatMap_cons, List.length_append] at ih ⊢
      rw [itemJoin_length products it hnd, ih]
      simp only [List.length_cons]
      omega

theorem order_items_sample_eq_nil (items : List ItemRow)
    (products : List ProductRow) :
    order_items_sample items products = [] ↔ items = [] := by
  constructor
  · intro h
    rcases items with _ | ⟨it, its⟩
    · rfl
    · exfalso
      simp only [order_items_sample, List.flatMap_cons,
        List.append_eq_nil] at h
      exact itemJoin_ne_nil products it h.1
  · intro h; rw [h]; rfl

/-! ### Lemmas about the funnel inner loop -/

/-- One clock step of the funnel: the next timestamp is the previous one
plus a 5-to-40-second increment. -/
def stepI (a b : Int) : Prop := a + 5 ≤ b ∧ b ≤ a + 40

theorem viewLoop_types (pyS : RandStream) (sid : Nat) (cid : String)
    (city state : Option String) (src dev : String) :
    ∀ (rs : List ItemMerged) (cur : Int) (py uid : Nat),
      (viewLoop pyS sid cid city state src dev rs cur py uid).1.map
        (fun e => e.event_type) = List.replicate rs.length "view_product" := by
  intro rs
  induction rs with
  | nil => intro cur py uid; simp [viewLoop]
  | cons r rs ih =>
      intro cur py uid
      simp [viewLoop, make_event, ih, List.replicate_succ]

theorem viewLoop_length (pyS : RandStream) (sid : Nat) (cid : String)
    (city state : Option String) (src dev : String)
    (rs : List ItemMerged) (cur : Int) (py uid : Nat) :
    (viewLoop pyS sid cid city state src dev rs cur py uid).1.length =
      rs.length := by
  have h := viewLoop_types pyS sid cid city state src dev rs cur py uid
  have h2 := congrArg List.length h
  simpa using h2

theorem viewLoop_ts (pyS : RandStream) (sid : Nat) (cid : String)
    (city state : Option String) (src dev : String) :
    ∀ (rs : List ItemMerged) (cur : Int) (py uid : Nat),
      ((viewLoop pyS sid cid city state src dev rs cur py uid).1.map
          (fun e => e.event_ts) ++
        [(viewLoop pyS sid cid city state src dev rs cur py uid).2.1]).head? =
          some cur ∧
      List.Chain' stepI
        ((viewLoop pyS sid cid city state src dev rs cur py uid).1.map
            (fun e => e.event_ts) ++
          [(viewLoop pyS sid cid city state src dev rs cur py uid).2.1]) := by
  intro rs
  induction rs with
  | nil => intro cur py uid; simp [viewLoop]
  | cons r rs ih =>
      intro cur py uid
      have h5 : (5:Nat) ≤ (randint 5 40 pyS py).1 := randint_fst_lower 5 40 pyS py
      have h40 : (randint 5 40 pyS py).1 ≤ 40 :=
        randint_fst_upper 5 40 pyS py (by omega)
      obtain ⟨ihh, ihc⟩ := ih (cur + ((randint 5 40 pyS py).1 : Int))
        (randint 5 40 pyS py).2 (uid + 1)
      constructor
      · simp [viewLoop, make_event]
      · simp only [viewLoop, make_event, List.map_cons, List.cons_append]
        rw [List.chain'_cons']
        refine ⟨?_, ihc⟩
        intro b hb
        rw [ihh] at hb
        simp only [Option.mem_def, Option.some.injEq] at hb
        subst hb
        constructor <;> [omega; omega]

theorem viewLoop_final_ts (pyS : RandStream) (sid : Nat) (cid : String)
    (city state : Option String) (src dev : String) :
    ∀ (rs : List ItemMerged) (cur : Int) (py uid : Nat),
      cur + 5 * rs.length ≤
          (viewLoop pyS sid cid city state src dev rs cur py uid).2.1 ∧
        (viewLoop pyS sid cid city state src dev rs cur py uid).2.1 ≤
          cur + 40 * rs.length := by
  intro rs
  induction rs with
  | nil => intro cur py uid; simp [viewLoop]
  | cons r rs ih =>
      intro cur py uid
      have h5 : (5:Nat) ≤ (randint 5 40 pyS py).1 := randint_fst_lower 5 40 pyS py
      have h40 : (randint 5 40 pyS py).1 ≤ 40 :=
        randint_fst_upper 5 40 pyS py (by omega)
      obtain ⟨ih1, ih2⟩ := ih (cur + ((randint 5 40 pyS py).1 : Int))
        (randint 5 40 pyS py).2 (uid + 1)
      simp only [viewLoop, make_event, List.length_cons] at ih1 ih2 ⊢
      push_cast at ih1 ih2 ⊢
      omega

theorem viewLoop_fields (pyS : RandStream) (sid : Nat) (cid : String)
    (city state : Option String) (src dev : String) :
    ∀ (rs : List ItemMerged) (cur : Int) (py uid : Nat),
      ∀ e ∈ (viewLoop pyS sid cid city state src dev rs cur py uid).1,
        e.session_id = sid ∧ e.device_type = dev ∧ e.traffic_source = src ∧
          e.is_authenticated = 1 ∧ e.customer_city = city.getD "" ∧
          e.customer_state = state.getD "" ∧ e.customer_id = cid := by
  intro rs
  induction rs with
  | nil => intro cur py uid e he; simp [viewLoop] at he
  | cons r rs ih =>
      intro cur py uid e he
      simp only [viewLoop, List.mem_cons] at he
      rcases he with he | he
      · subst he; simp [make_event]
      · exact ih _ _ _ e he

theorem viewLoop_uid (pyS : RandStream) (sid : Nat) (cid : String)
    (city state : Option String) (src dev : String) :
    ∀ (rs : List ItemMerged) (cur : Int) (py uid : Nat),
      (viewLoop pyS sid cid city state src dev rs cur py uid).2.2.2 =
        uid + rs.length := by
  intro rs
  induction rs with
  | nil => intro cur py uid; simp [viewLoop]
  | cons r rs ih =>
      intro cur py uid
      simp only [viewLoop, make_event, List.length_cons, ih]
      omega

theorem viewLoop_py (pyS : RandStream) (sid : Nat) (cid : String)
    (city state : Option String) (src dev : String) :
    ∀ (rs : List ItemMerged) (cur : Int) (py uid : Nat),
      (viewLoop pyS sid cid city state src dev rs cur py uid).2.2.1 =
        py + rs.length := by
  intro rs
  induction rs with
  | nil => intro cur py uid; simp [viewLoop]
  | cons r rs ih =>
      intro cur py uid
      simp only [viewLoop, make_event, randint, List.length_cons, ih]
      omega

/-- The shape of the view loop's output (timestamps, and the entire final
state) depends on the sampled items only through how many there are. -/
theorem viewLoop_struct (pyS : RandStream) (sid : Nat) (cid : String)
    (city state : Option String) (src dev : String) :
    ∀ (rs1 rs2 : List ItemMerged) (cur : Int) (py uid : Nat),
      rs1.length = rs2.length →
      (viewLoop pyS sid cid city state src dev rs1 cur py uid).1.map
          (fun e => e.event_ts) =
        (viewLoop pyS sid cid city state src dev rs2 cur py uid).1.map
          (fun e => e.event_ts) ∧
      (viewLoop pyS sid cid city state src dev rs1 cur py uid).2 =
        (viewLoop pyS sid cid city state src dev rs2 cur py uid).2 := by
  intro rs1
  induction rs1 with
  | nil =>
      intro rs2 cur py uid hlen
      rcases rs2 with _ | ⟨r2, rs2⟩
      · exact ⟨rfl, rfl⟩
      · simp at hlen
  | cons r1 rs1 ih =>
      intro rs2 cur py uid hlen
      rcases rs2 with _ | ⟨r2, rs2⟩
      · simp at hlen
      · simp only [List.length_cons] at hlen
        obtain ⟨ih1, ih2⟩ := ih rs2 (cur + ((randint 5 40 pyS py).1 : Int))
          (randint 5 40 pyS py).2 (uid + 1) (by omega)
        simp only [viewLoop, make_event, List.map_cons]
        exact ⟨by rw [ih1], by rw [ih2]⟩

/-- Unfolding of the funnel phase at an order that does produce a session. -/
theorem funnelPhase_cons_some (itemsTable : List ItemMerged)
    (pyS npS : RandStream) (o : MergedOrder) (rest : List MergedOrder)
    (st : RunState) (sess : List Event) (st' : RunState)
    (h : funnelOrder itemsTable pyS npS o st = some (sess, st')) :
    funnelPhase itemsTable pyS npS (o :: rest) st =
      (sess :: (funnelPhase itemsTable pyS npS rest st').1,
        (funnelPhase itemsTable pyS npS rest st').2) := by
  simp [funnelPhase, h]

/-- C8: if a selected delivered order has no matching rows in the
order-items table, the funnel generator emits no session and no events for
that order (funnelOrder yields none) and generation continues with the
remaining orders unchanged — a silent skip, not an abort. -/
theorem C8_no_items_silent_skip
    (items : List ItemRow) (products : List ProductRow)
    (pyS npS : RandStream) (o : MergedOrder) (st : RunState)
    (rest : List MergedOrder)
    (hempty : items.filter (fun it => it.order_id == o.order_id) = []) :
    funnelOrder (order_items_sample items products) pyS npS o st = none ∧
    funnelPhase (order_items_sample items products) pyS npS (o :: rest) st =
      funnelPhase (order_items_sample items products) pyS npS rest st := by
  have hoi : (order_items_sample items products).filter
      (fun r => r.order_id == o.order_id) = [] := by
    rw [order_items_sample_filter, hempty]
    rfl
  have h1 : funnelOrder (order_items_sample items products) pyS npS o st =
      none := by
    simp [funnelOrder, hoi]
  exact ⟨h1, by simp [funnelPhase, h1]⟩

/-- Concrete inputs used by the witnesses. -/
def wOrder : MergedOrder :=
  ⟨"o1", "c1", "delivered", some 1000000, some "sao paulo", some "SP"⟩

def wItems : List ItemRow := [⟨"o1", "p1"⟩, ⟨"o1", "p2"⟩]

def wProducts : List ProductRow := [⟨"p1", "cat"⟩, ⟨"p2", "cat"⟩]

def wStream : RandStream := fun _ => 0

/-- Witness for C8 at concrete inputs: an order whose id matches no
order-item row. -/
theorem C8_witness :
    [(⟨"o1", "p1"⟩ : ItemRow)].filter (fun it => it.order_id == "zzz") = [] ∧
    funnelOrder (order_items_sample [⟨"o1", "p1"⟩] wProducts) wStream wStream
      ⟨"zzz", "c", "delivered", some 0, none, none⟩ ⟨0, 0, 0⟩ = none := by
  refine ⟨by decide, ?_⟩
  exact (C8_no_items_silent_skip [⟨"o1", "p1"⟩] wProducts wStream wStream
    ⟨"zzz", "c", "delivered", some 0, none, none⟩ ⟨0, 0, 0⟩ [] (by decide)).1

/-- Last elements of the funnel session list shape. -/
theorem getLast_cons_append_three {a : Type} (x ac ck pu : a) (l : List a) :
    (x :: l ++ [ac, ck, pu]).getLast? = some pu ∧
    (x :: l ++ [ac, ck, pu]).dropLast.getLast? = some ck := by
  constructor
  · rw [show x :: l ++ [ac, ck, pu] = (x :: l ++ [ac, ck]) ++ [pu] by simp]
    exact List.getLast?_concat _
  · rw [show x :: l ++ [ac, ck, pu] = (x :: l ++ [ac, ck]) ++ [pu] by simp,
      List.dropLast_concat,
      show x :: l ++ [ac, ck] = (x :: l ++ [ac]) ++ [ck] by simp]
    exact List.getLast?_concat _

/-- Core timing fact of a funnel session: the synthetic checkout clock can
drift at most 5 x 40 = 200 seconds past the base time, while the base time
sits at least 300 seconds before the real purchase timestamp, so the
purchase event is always at least 100 seconds after the checkout event. -/
theorem funnel_checkout_purchase_gap (itemsTable : List ItemMerged)
    (pyS npS : RandStream) (o : MergedOrder) (st : RunState)
    (sess : List Event) (st' : RunState) (ck pu : Event)
    (h : funnelOrder itemsTable pyS npS o st = some (sess, st'))
    (hck : sess.dropLast.getLast? = some ck)
    (hpu : sess.getLast? = some pu) :
    ck.event_ts + 100 ≤ pu.event_ts := by
  rcases hne : (itemsTable.filter (fun r => r.order_id == o.order_id)).isEmpty
    with _ | _
  case true => simp [funnelOrder, hne] at h
  case false =>
  simp only [funnelOrder, hne, Bool.false_eq_true, if_false,
    Option.some.injEq, Prod.mk.injEq] at h
  obtain ⟨hsess, -⟩ := h
  set oi := itemsTable.filter (fun r => r.order_id == o.order_id) with hoi
  set dv := choice device_types pyS st.py with hdv
  set sv := choice traffic_sources pyS dv.2 with hsv
  set samp := sampleWR oi (min 3 oi.length) npS st.np with hsamp
  set pt := o.order_purchase_timestamp.getD 0 with hptd
  set off := randint 5 40 pyS sv.2 with hoff
  set i1 := randint 5 40 pyS off.2 with hi1
  set e1 := make_event (st.uid + 1) "page_view" st.uid (pt - 60 * (off.1 : Int))
    (some o.customer_id) none none o.customer_city o.customer_state true
    (some sv.1) (some dv.1) with he1
  set vl := viewLoop pyS st.uid o.customer_id o.customer_city o.customer_state
    sv.1 dv.1 samp.1 (pt - 60 * (off.1 : Int) + (i1.1 : Int)) i1.2 e1.2 with hvl
  set e2 := make_event vl.2.2.2 "add_to_cart" st.uid vl.2.1
    (some o.customer_id)
    (some (samp.1.headD ⟨o.order_id, "", none⟩).product_id) none
    o.customer_city o.customer_state true (some sv.1) (some dv.1) with he2
  set i2 := randint 5 40 pyS vl.2.2.1 with hi2
  set e3 := make_event e2.2 "checkout" st.uid (vl.2.1 + (i2.1 : Int))
    (some o.customer_id) none none o.customer_city o.customer_state true
    (some sv.1) (some dv.1) with he3
  set e4 := make_event e3.2 "purchase" st.uid pt (some o.customer_id) none
    (some o.order_id) o.customer_city o.customer_state true (some sv.1)
    (some dv.1) with he4
  rw [← hsess] at hck hpu
  obtain ⟨hlast, hdrop⟩ := getLast_cons_append_three e1.1 e2.1 e3.1 e4.1 vl.1
  rw [hdrop, Option.some.injEq] at hck
  rw [hlast, Option.some.injEq] at hpu
  subst hck
  subst hpu
  have hckts : e3.1.event_ts = vl.2.1 + (i2.1 : Int) := by
    rw [he3]; simp [make_event]
  have hputs : e4.1.event_ts = pt := by
    rw [he4]; simp [make_event]
  rw [hckts, hputs]
  have hofflo : (5:Nat) ≤ off.1 := by rw [hoff]; exact randint_fst_lower _ _ _ _
  have hi1hi : i1.1 ≤ 40 := by
    rw [hi1]; exact randint_fst_upper 5 40 pyS off.2 (by omega)
  have hi2hi : i2.1 ≤ 40 := by
    rw [hi2]; exact randint_fst_upper 5 40 pyS vl.2.2.1 (by omega)
  have hslen : samp.1.length ≤ 3 := by
    rw [hsamp, sampleWR_length]
    omega
  have hvlts := (viewLoop_final_ts pyS st.uid o.customer_id o.customer_city
    o.customer_state sv.1 dv.1 samp.1
    (pt - 60 * (off.1 : Int) + (i1.1 : Int)) i1.2 e1.2).2
  rw [← hvl] at hvlts
  have hc : (samp.1.length : Int) ≤ 3 := by exact_mod_cast hslen
  have ho : (5:Int) ≤ (off.1 : Int) := by exact_mod_cast hofflo
  have h1 : (i1.1 : Int) ≤ 40 := by exact_mod_cast hi1hi
  have h2 : (i2.1 : Int) ≤ 40 := by exact_mod_cast hi2hi
  omega

/-- Complete anatomy of the session emitted for one delivered order with
order items: the exact event-type sequence, the per-session constant
fields, the 5-to-40-second clock chain up to checkout, the purchase event
anchored at the order's recorded timestamp and carrying its order id, the
add_to_cart event carrying the first sampled item, and the uuid-counter
advance. -/
theorem funnelOrder_anatomy (itemsTable : List ItemMerged)
    (pyS npS : RandStream) (o : MergedOrder) (st : RunState)
    (sess : List Event) (st' : RunState)
    (h : funnelOrder itemsTable pyS npS o st = some (sess, st')) :
    sess.map (fun e => e.event_type) =
      "page_view" :: List.replicate
        (min 3 (itemsTable.filter (fun r => r.order_id == o.order_id)).length)
        "view_product" ++ ["add_to_cart", "checkout", "purchase"] ∧
    (∀ e ∈ sess, e.session_id = st.uid ∧
      e.device_type = (choice device_types pyS st.py).1 ∧
      e.traffic_source =
        (choice traffic_sources pyS (choice device_types pyS st.py).2).1 ∧
      e.is_authenticated = 1 ∧
      e.customer_city = o.customer_city.getD "" ∧
      e.customer_state = o.customer_state.getD "" ∧
      e.customer_id = o.customer_id) ∧
    List.Chain' (fun a b : Event => stepI a.event_ts b.event_ts)
      sess.dropLast ∧
    (sess.map (fun e => e.event_ts)).getLast? =
      some (o.order_purchase_timestamp.getD 0) ∧
    (sess.map (fun e => e.order_id)).getLast? = some o.order_id ∧
    (sess.getD (min 3 (itemsTable.filter
        (fun r => r.order_id == o.order_id)).length + 1) default).event_type =
      "add_to_cart" ∧
    (sess.getD (min 3 (itemsTable.filter
        (fun r => r.order_id == o.order_id)).length + 1) default).product_id =
      ((sampleWR (itemsTable.filter (fun r => r.order_id == o.order_id))
          (min 3 (itemsTable.filter
            (fun r => r.order_id == o.order_id)).length) npS st.np).1.headD
        ⟨o.order_id, "", none⟩).product_id ∧
    st'.uid = st.uid + min 3 (itemsTable.filter
      (fun r => r.order_id == o.order_id)).length + 5 := by
  rcases hne : (itemsTable.filter (fun r => r.order_id == o.order_id)).isEmpty
    with _ | _
  case true => simp [funnelOrder, hne] at h
  case false =>
  simp only [funnelOrder, hne, Bool.false_eq_true, if_false,
    Option.some.injEq, Prod.mk.injEq] at h
  obtain ⟨hsess, hstate⟩ := h
  set oi := itemsTable.filter (fun r => r.order_id == o.order_id) with hoi
  set dv := choice device_types pyS st.py with hdv
  set sv := choice traffic_sources pyS dv.2 with hsv
  set samp := sampleWR oi (min 3 oi.length) npS st.np with hsamp
  set pt := o.order_purchase_timestamp.getD 0 with hptd
  set off := randint 5 40 pyS sv.2 with hoff
  set i1 := randint 5 40 pyS off.2 with hi1
  set e1 := make_event (st.uid + 1) "page_view" st.uid (pt - 60 * (off.1 : Int))
    (some o.customer_id) none none o.customer_city o.customer_state true
    (some sv.1) (some dv.1) with he1
  set vl := viewLoop pyS st.uid o.customer_id o.customer_city o.customer_state
    sv.1 dv.1 samp.1 (pt - 60 * (off.1 : Int) + (i1.1 : Int)) i1.2 e1.2 with hvl
  set e2 := make_event vl.2.2.2 "add_to_cart" st.uid vl.2.1
    (some o.customer_id)
    (some (samp.1.headD ⟨o.order_id, "", none⟩).product_id) none
    o.customer_city o.customer_state true (some sv.1) (some dv.1) with he2
  set i2 := randint 5 40 pyS vl.2.2.1 with hi2
  set e3 := make_event e2.2 "checkout" st.uid (vl.2.1 + (i2.1 : Int))
    (some o.customer_id) none none o.customer_city o.customer_state true
    (some sv.1) (some dv.1) with he3
  set e4 := make_event e3.2 "purchase" st.uid pt (some o.customer_id) none
    (some o.order_id) o.customer_city o.customer_state true (some sv.1)
    (some dv.1) with he4
  have hk : samp.1.length = min 3 oi.length := by
    rw [hsamp, sampleWR_length]
    omega
  have hi1lo : (5:Nat) ≤ i1.1 := by rw [hi1]; exact randint_fst_lower _ _ _ _
  have hi1hi : i1.1 ≤ 40 := by
    rw [hi1]; exact randint_fst_upper 5 40 pyS off.2 (by omega)
  have hi2lo : (5:Nat) ≤ i2.1 := by rw [hi2]; exact randint_fst_lower _ _ _ _
  have hi2hi : i2.1 ≤ 40 := by
    rw [hi2]; exact randint_fst_upper 5 40 pyS vl.2.2.1 (by omega)
  subst hsess
  refine ⟨?_, ?_, ?_, ?_, ?_, ?_, ?_, ?_⟩
  · -- event-type sequence
    simp only [List.map_cons, List.map_append, he1, he2, he3, he4, make_event,
      viewLoop_types pyS st.uid o.customer_id o.customer_city o.customer_state
        sv.1 dv.1 samp.1 (pt - 60 * (off.1 : Int) + (i1.1 : Int)) i1.2 e1.2,
      ← hvl, hk]
    simp
  · -- per-session constants
    intro e he
    simp only [List.mem_cons, List.mem_append, List.mem_singleton] at he
    rcases he with (rfl | hin) | rfl | rfl | rfl | h0
    · rw [he1]; simp [make_event]
    · rw [hvl] at hin
      have := viewLoop_fields pyS st.uid o.customer_id o.customer_city
        o.customer_state sv.1 dv.1 samp.1
        (pt - 60 * (off.1 : Int) + (i1.1 : Int)) i1.2 e1.2 e hin
      exact ⟨this.1, this.2.1, this.2.2.1, this.2.2.2.1, this.2.2.2.2.1,
        this.2.2.2.2.2.1, this.2.2.2.2.2.2⟩
    · rw [he2]; simp [make_event]
    · rw [he3]; simp [make_event]
    · rw [he4]; simp [make_event]
    · simp at h0
  · -- 5-to-40-second clock chain from page_view to checkout
    have hshape : (e1.1 :: vl.1 ++ [e2.1, e3.1, e4.1]).dropLast =
        e1.1 :: vl.1 ++ [e2.1, e3.1] := by
      rw [show e1.1 :: vl.1 ++ [e2.1, e3.1, e4.1] =
        (e1.1 :: vl.1 ++ [e2.1, e3.1]) ++ [e4.1] by simp]
      rw [List.dropLast_concat]
    rw [hshape, ← List.chain'_map (fun e : Event => e.event_ts)]
    obtain ⟨hhead, hchain⟩ := viewLoop_ts pyS st.uid o.customer_id
      o.customer_city o.customer_state sv.1 dv.1 samp.1
      (pt - 60 * (off.1 : Int) + (i1.1 : Int)) i1.2 e1.2
    rw [← hvl] at hhead hchain
    have he1ts : e1.1.event_ts = pt - 60 * (off.1 : Int) := by
      rw [he1]; simp [make_event]
    have he2ts : e2.1.event_ts = vl.2.1 := by rw [he2]; simp [make_event]
    have he3ts : e3.1.event_ts = vl.2.1 + (i2.1 : Int) := by
      rw [he3]; simp [make_event]
    have hmapshape : (e1.1 :: vl.1 ++ [e2.1, e3.1]).map
        (fun e : Event => e.event_ts) =
        e1.1.event_ts :: ((vl.1.map (fun e : Event => e.event_ts) ++
          [vl.2.1]) ++ [vl.2.1 + (i2.1 : Int)]) := by
      simp [he2ts, he3ts]
    rw [hmapshape]
    rw [List.chain'_cons']
    constructor
    · intro b hb
      rcases hL : vl.1.map (fun e => e.event_ts) ++ [vl.2.1] with _ | ⟨a, as⟩
      · rw [hL] at hhead; simp at hhead
      · rw [hL] at hhead hb
        rw [List.cons_append] at hb
        simp only [List.head?_cons, Option.mem_def, Option.some.injEq]
          at hhead hb
        rw [he1ts]
        simp only [stepI]
        omega
    · rw [List.chain'_append]
      refine ⟨hchain, List.chain'_singleton _, ?_⟩
      intro x hx y hy
      rw [List.getLast?_concat] at hx
      simp only [List.head?_cons, Option.mem_def, Option.some.injEq] at hx hy
      simp only [stepI]
      omega
  · -- purchase timestamp
    have he4ts : e4.1.event_ts = pt := by rw [he4]; simp [make_event]
    rw [List.getLast?_map,
      (getLast_cons_append_three e1.1 e2.1 e3.1 e4.1 vl.1).1]
    simp [he4ts]
  · -- purchase order id
    have he4oid : e4.1.order_id = o.order_id := by rw [he4]; simp [make_event]
    rw [List.getLast?_map,
      (getLast_cons_append_three e1.1 e2.1 e3.1 e4.1 vl.1).1]
    simp [he4oid]
  · -- the add_to_cart event sits right after the view_product block
    have hlen : vl.1.length = min 3 oi.length := by
      rw [hvl, viewLoop_length, hk]
    rw [List.getD_eq_getElem?_getD,
      show e1.1 :: vl.1 ++ [e2.1, e3.1, e4.1] =
        [e1.1] ++ (vl.1 ++ [e2.1, e3.1, e4.1]) by simp,
      List.getElem?_append_right (by simp),
      show min 3 oi.length + 1 - [e1.1].length = min 3 oi.length by simp,
      List.getElem?_append_right (le_of_eq hlen), hlen, Nat.sub_self]
    simp only [List.getElem?_cons_zero, Option.getD_some]
    rw [he2]; simp [make_event]
  · -- the add_to_cart product is the first sampled item
    have hlen : vl.1.length = min 3 oi.length := by
      rw [hvl, viewLoop_length, hk]
    rw [List.getD_eq_getElem?_getD,
      show e1.1 :: vl.1 ++ [e2.1, e3.1, e4.1] =
        [e1.1] ++ (vl.1 ++ [e2.1, e3.1, e4.1]) by simp,
      List.getElem?_append_right (by simp),
      show min 3 oi.length + 1 - [e1.1].length = min 3 oi.length by simp,
      List.getElem?_append_right (le_of_eq hlen), hlen, Nat.sub_self]
    simp only [List.getElem?_cons_zero, Option.getD_some]
    rw [he2]; simp [make_event]
  · -- uuid-counter advance
    have huid : vl.2.2.2 = e1.2 + samp.1.length := by
      rw [hvl, viewLoop_uid]
    rw [← hstate]
    simp only [he4, he3, he2, he1, make_event] at huid ⊢
    omega

/-- C3, counterexample: the claim asserts the purchase timestamp can come
out earlier than the synthetic checkout timestamp for some input; in fact
no input and no random draws produce a purchase event earlier than the
checkout event of the same funnel session. -/
theorem C3_counterexample :
    ¬ ∃ (itemsTable : List ItemMerged) (pyS npS : RandStream)
        (o : MergedOrder) (st : RunState) (sess : List Event) (st' : RunState)
        (ck pu : Event),
      funnelOrder itemsTable pyS npS o st = some (sess, st') ∧
      sess.dropLast.getLast? = some ck ∧ sess.getLast? = some pu ∧
      pu.event_ts < ck.event_ts := by
  rintro ⟨itemsTable, pyS, npS, o, st, sess, st', ck, pu, h, hck, hpu, hlt⟩
  have := funnel_checkout_purchase_gap itemsTable pyS npS o st sess st' ck pu
    h hck hpu
  omega

/-- C3, amended: within a funnel session the purchase event's timestamp is
always at least 100 seconds later than the synthetic checkout event's
timestamp; it is never earlier. -/
theorem C3_purchase_after_checkout (itemsTable : List ItemMerged)
    (pyS npS : RandStream) (o : MergedOrder) (st : RunState)
    (sess : List Event) (st' : RunState) (ck pu : Event)
    (h : funnelOrder itemsTable pyS npS o st = some (sess, st'))
    (hck : sess.dropLast.getLast? = some ck)
    (hpu : sess.getLast? = some pu) :
    ck.event_ts + 100 ≤ pu.event_ts :=
  funnel_checkout_purchase_gap itemsTable pyS npS o st sess st' ck pu h hck hpu

/-- C1: for every delivered order selected into the funnel phase that has
at least one order item, exactly one session is emitted (all its events
share the fresh session id drawn for the order) whose event sequence, in
generation order, is one page_view, then min(3, number of order items)
view_product events, then one add_to_cart whose product_id is the first
sampled item, then one checkout, then one purchase whose order_id equals
the order's id; the phase prepends exactly that one session block.  The
Nodup hypothesis states that product_id is a key of the products table, so
the joined item count per order equals the raw order-item count. -/
theorem C1_funnel_session_shape
    (items : List ItemRow) (products : List ProductRow)
    (pyS npS : RandStream) (o : MergedOrder) (st : RunState)
    (sess : List Event) (st' : RunState)
    (hnd : (products.map (fun p => p.product_id)).Nodup)
    (h : funnelOrder (order_items_sample items products) pyS npS o st =
      some (sess, st')) :
    sess.map (fun e => e.event_type) =
      "page_view" :: List.replicate
        (min 3 (items.filter (fun it => it.order_id == o.order_id)).length)
        "view_product" ++ ["add_to_cart", "checkout", "purchase"] ∧
    1 ≤ (items.filter (fun it => it.order_id == o.order_id)).length ∧
    (∀ e ∈ sess, e.session_id = st.uid) ∧
    (sess.map (fun e => e.order_id)).getLast? = some o.order_id ∧
    (sess.getD (min 3
        (items.filter (fun it => it.order_id == o.order_id)).length + 1)
      default).event_type = "add_to_cart" ∧
    (sess.getD (min 3
        (items.filter (fun it => it.order_id == o.order_id)).length + 1)
      default).product_id =
      ((sampleWR ((order_items_sample items products).filter
          (fun r => r.order_id == o.order_id))
          (min 3 ((order_items_sample items products).filter
            (fun r => r.order_id == o.order_id)).length) npS st.np).1.headD
        ⟨o.order_id, "", none⟩).product_id ∧
    (∀ rest, funnelPhase (order_items_sample items products) pyS npS
        (o :: rest) st =
      (sess :: (funnelPhase (order_items_sample items products) pyS npS rest
        st').1,
       (funnelPhase (order_items_sample items products) pyS npS rest
        st').2)) := by
  obtain ⟨h1, h2, -, -, h5, h6, h7, -⟩ :=
    funnelOrder_anatomy (order_items_sample items products) pyS npS o st sess
      st' h
  have hmc : ((order_items_sample items products).filter
      (fun r => r.order_id == o.order_id)).length =
      (items.filter (fun it => it.order_id == o.order_id)).length := by
    rw [order_items_sample_filter]
    exact order_items_sample_length _ products hnd
  have hne : ((order_items_sample items products).filter
      (fun r => r.order_id == o.order_id)).isEmpty = false := by
    rcases hne : ((order_items_sample items products).filter
      (fun r => r.order_id == o.order_id)).isEmpty with _ | _
    · exact hne
    · simp [funnelOrder, hne] at h
  have hpos : 1 ≤ ((order_items_sample items products).filter
      (fun r => r.order_id == o.order_id)).length := by
    rcases hl : (order_items_sample items products).filter
      (fun r => r.order_id == o.order_id) with _ | ⟨a, as⟩
    · rw [hl] at hne; simp at hne
    · rw [hl]; simp
  refine ⟨?_, ?_, ?_, h5, ?_, ?_, ?_⟩
  · rw [← hmc]; exact h1
  · omega
  · intro e he; exact (h2 e he).1
  · rw [← hmc]; exact h6
  · rw [← hmc]; exact h7
  · intro rest
    exact funnelPhase_cons_some (order_items_sample items products) pyS npS o
      rest st sess st' h

/-- C2: within every purchase-funnel session the timestamps from page_view
through checkout advance by a 5-to-40-second increment per event (hence are
non-decreasing in generation order), and the purchase event's timestamp
equals the source order's recorded purchase timestamp exactly. -/
theorem C2_funnel_timestamps (itemsTable : List ItemMerged)
    (pyS npS : RandStream) (o : MergedOrder) (st : RunState)
    (sess : List Event) (st' : RunState) (pt : Int)
    (hpt : o.order_purchase_timestamp = some pt)
    (h : funnelOrder itemsTable pyS npS o st = some (sess, st')) :
    List.Chain' (fun a b : Event =>
      a.event_ts + 5 ≤ b.event_ts ∧ b.event_ts ≤ a.event_ts + 40)
      sess.dropLast ∧
    List.Chain' (fun a b : Event => a.event_ts ≤ b.event_ts) sess.dropLast ∧
    (sess.map (fun e => e.event_ts)).getLast? = some pt := by
  obtain ⟨-, -, h3, h4, -, -, -, -⟩ :=
    funnelOrder_anatomy itemsTable pyS npS o st sess st' h
  refine ⟨h3, ?_, ?_⟩
  · exact List.Chain'.imp (fun a b hab => by have := hab.1; omega) h3
  · rw [hpt] at h4
    simpa using h4

/-- The funnel session generated for the concrete witness order. -/
def wFunnelRes : List Event × RunState :=
  (funnelOrder (order_items_sample wItems wProducts) wStream wStream wOrder
    ⟨0, 0, 0⟩).getD ([], ⟨0, 0, 0⟩)

/-- Witness for C1: the concrete two-item delivered order produces the
expected event-type sequence. -/
theorem C1_witness :
    wFunnelRes.1.map (fun e => e.event_type) =
      "page_view" :: List.replicate
        (min 3 (wItems.filter (fun it => it.order_id == wOrder.order_id)).length)
        "view_product" ++ ["add_to_cart", "checkout", "purchase"] :=
  (C1_funnel_session_shape wItems wProducts wStream wStream wOrder ⟨0, 0, 0⟩
    wFunnelRes.1 wFunnelRes.2 (by decide) (by decide)).1

/-- Witness for C2: the concrete session's purchase event carries exactly
the order's recorded purchase timestamp. -/
theorem C2_witness :
    (wFunnelRes.1.map (fun e => e.event_ts)).getLast? = some 1000000 :=
  (C2_funnel_timestamps (order_items_sample wItems wProducts) wStream wStream
    wOrder ⟨0, 0, 0⟩ wFunnelRes.1 wFunnelRes.2 1000000 (by decide)
    (by decide)).2.2

/-- Witness for the amended C3: on the concrete session the purchase event
is at least 100 seconds after the checkout event. -/
theorem C3_witness :
    ((wFunnelRes.1.dropLast.getLast?).getD default).event_ts + 100 ≤
      ((wFunnelRes.1.getLast?).getD default).event_ts :=
  C3_purchase_after_checkout (order_items_sample wItems wProducts) wStream
    wStream wOrder ⟨0, 0, 0⟩ wFunnelRes.1 wFunnelRes.2
    ((wFunnelRes.1.dropLast.getLast?).getD default)
    ((wFunnelRes.1.getLast?).getD default) (by decide) (by decide) (by decide)

/-- C9: if zero delivered orders with parseable purchase timestamps remain
after filtering, the run aborts before any event generation with the
RuntimeError message naming the missing precondition ("No delivered orders
found"), and no output is produced. -/
theorem C9_empty_delivered_abort (inp : Inputs) (cfg : Config)
    (pyS npS pdS : RandStream)
    (h : delivered inp = []) :
    pipeline inp cfg pyS npS pdS = .error noDeliveredMsg ∧
    "No delivered orders found".toList.isPrefixOf noDeliveredMsg.toList =
      true ∧
    (∀ out, pipeline inp cfg pyS npS pdS ≠ .ok out) := by
  have h1 : pipeline inp cfg pyS npS pdS = .error noDeliveredMsg := by
    simp [pipeline, h]
  refine ⟨h1, by decide, ?_⟩
  intro out hout
  rw [h1] at hout
  exact Except.noConfusion hout

/-- Witness for C9: the empty input tables trigger the abort. -/
theorem C9_witness :
    pipeline ⟨[], [], [], []⟩ ⟨5, 1⟩ wStream wStream wStream =
      .error noDeliveredMsg :=
  (C9_empty_delivered_abort ⟨[], [], [], []⟩ ⟨5, 1⟩ wStream wStream wStream
    (by decide)).1

/-- C10: whenever the pipeline reaches the browsing phase (it returned ok
rather than aborting), the base-order source is the capped delivered-order
table, not the all-orders fallback, and every order in it — in particular
every sampled browsing base order — is a delivered order with a parseable
purchase timestamp.  The cap hypothesis records that MAX_PURCHASE_SESSIONS
is positive (it is 10000 in the source). -/
theorem C10_browsing_base_from_delivered (inp : Inputs) (cfg : Config)
    (pyS npS pdS : RandStream) (out : List Event)
    (hcap : 0 < cfg.maxPurchaseSessions)
    (h : pipeline inp cfg pyS npS pdS = .ok out) :
    baseOrdersSource inp cfg pdS = cappedDelivered inp cfg pdS ∧
    (∀ o ∈ baseOrdersSource inp cfg pdS,
      o.order_status = "delivered" ∧ o.order_purchase_timestamp.isSome) ∧
    (∀ i, ∀ bo ∈ (sampleWR (baseOrdersSource inp cfg pdS) 1 npS i).1,
      bo.order_purchase_timestamp.isSome) := by
  have hdel : (delivered inp).isEmpty = false := by
    rcases hd : (delivered inp).isEmpty with _ | _
    · rfl
    · rw [pipeline] at h
      rw [hd] at h
      simp at h
  have hdelne : delivered inp ≠ [] := by
    rcases hl : delivered inp with _ | ⟨a, as⟩
    · rw [hl] at hdel; simp at hdel
    · simp
  have hcapne : (cappedDelivered inp cfg pdS).isEmpty = false := by
    rw [cappedDelivered]
    rcases hlt : decide (cfg.maxPurchaseSessions < (delivered inp).length)
      with _ | _
    · rw [if_neg (by simpa using hlt)]
      simpa [List.isEmpty_iff] using hdelne
    · rw [if_pos (by simpa using hlt)]
      have hlen := sampleWR_length cfg.maxPurchaseSessions (delivered inp)
        pdS 0
      have : 0 < ((sampleWR (delivered inp) cfg.maxPurchaseSessions pdS
          0).1).length := by
        rw [hlen]
        have := of_decide_eq_true hlt
        omega
      rcases hres : (sampleWR (delivered inp) cfg.maxPurchaseSessions pdS 0).1
        with _ | ⟨a, as⟩
      · rw [hres] at this; simp at this
      · rfl
  have hsrc : baseOrdersSource inp cfg pdS = cappedDelivered inp cfg pdS := by
    rw [baseOrdersSource, hcapne]
    simp
  have hsub : ∀ o ∈ cappedDelivered inp cfg pdS, o ∈ delivered inp := by
    intro o ho
    rw [cappedDelivered] at ho
    by_cases hlt : cfg.maxPurchaseSessions < (delivered inp).length
    · rw [if_pos hlt] at ho
      exact sampleWR_subset cfg.maxPurchaseSessions (delivered inp) pdS 0 o ho
    · rw [if_neg hlt] at ho
      exact ho
  have hmem : ∀ o ∈ baseOrdersSource inp cfg pdS,
      o.order_status = "delivered" ∧ o.order_purchase_timestamp.isSome := by
    intro o ho
    rw [hsrc] at ho
    have hod := hsub o ho
    rw [delivered, deliveredOrders] at hod
    have h2 := List.mem_filter.mp hod
    have h3 := List.mem_filter.mp h2.1
    refine ⟨?_, h2.2⟩
    have := h3.2
    simpa using this
  refine ⟨hsrc, hmem, ?_⟩
  intro i bo hbo
  exact (hmem bo (sampleWR_subset 1 _ npS i bo hbo)).2

instance {e a : Type} [DecidableEq e] [DecidableEq a] :
    DecidableEq (Except e a) := fun x y =>
  match x, y with
  | .ok u, .ok v =>
      if h : u = v then isTrue (by rw [h])
      else isFalse (by intro hc; injection hc; exact h (by assumption))
  | .ok u, .error v => isFalse (fun hc => Except.noConfusion hc)
  | .error u, .ok v => isFalse (fun hc => Except.noConfusion hc)
  | .error u, .error v =>
      if h : u = v then isTrue (by rw [h])
      else isFalse (by intro hc; injection hc; exact h (by assumption))

/-- The full concrete input tables used by the pipeline witnesses. -/
def wInputs : Inputs :=
  ⟨[⟨"o1", "c1", "delivered", some 1000000⟩], wItems, wProducts,
   [⟨"c1", "u1", "sao paulo", "SP"⟩]⟩

/-- Witness for C10 at a concrete successful pipeline run. -/
theorem C10_witness :
    baseOrdersSource wInputs ⟨5, 1⟩ wStream =
      cappedDelivered wInputs ⟨5, 1⟩ wStream :=
  (C10_browsing_base_from_delivered wInputs ⟨5, 1⟩ wStream wStream wStream
    ((pipeline wInputs ⟨5, 1⟩ wStream wStream wStream).toOption.getD [])
    (by decide) (by decide)).1

/-! ### Lemmas about the browsing-session inner loop -/

theorem stepLoop_types (pyS : RandStream) (pids : List String) (sid : Nat)
    (cid : Option String) (city state : Option String) (auth : Bool)
    (src dev : String) :
    ∀ (n : Nat) (cur : Int) (py uid : Nat),
      ∀ e ∈ (stepLoop pyS pids sid cid city state auth src dev n cur py uid).1,
        e.event_type ∈ ["page_view", "view_product", "add_to_cart"] := by
  intro n
  induction n with
  | zero => intro cur py uid e he; simp [stepLoop] at he
  | succ n ih =>
      intro cur py uid e he
      simp only [stepLoop, List.mem_cons] at he
      rcases he with rfl | he
      · simp only [make_event]
        by_cases h1 : (randPct pyS py).1 < 40
        · rw [if_pos h1]; simp
        · rw [if_neg h1]
          by_cases h2 : (randPct pyS py).1 < 75
          · rw [if_pos h2]; simp
          · rw [if_neg h2]; simp
      · exact ih _ _ _ e he

theorem stepLoop_fields (pyS : RandStream) (pids : List String) (sid : Nat)
    (cid : Option String) (city state : Option String) (auth : Bool)
    (src dev : String) :
    ∀ (n : Nat) (cur : Int) (py uid : Nat),
      ∀ e ∈ (stepLoop pyS pids sid cid city state auth src dev n cur py uid).1,
        e.session_id = sid ∧ e.device_type = dev ∧ e.traffic_source = src ∧
          e.is_authenticated = (if auth then 1 else 0) ∧
          e.customer_city = city.getD "" ∧
          e.customer_state = state.getD "" := by
  intro n
  induction n with
  | zero => intro cur py uid e he; simp [stepLoop] at he
  | succ n ih =>
      intro cur py uid e he
      simp only [stepLoop, List.mem_cons] at he
      rcases he with rfl | he
      · simp [make_event]
      · exact ih _ _ _ e he

theorem stepLoop_uid (pyS : RandStream) (pids : List String) (sid : Nat)
    (cid : Option String) (city state : Option String) (auth : Bool)
    (src dev : String) :
    ∀ (n : Nat) (cur : Int) (py uid : Nat),
      (stepLoop pyS pids sid cid city state auth src dev n cur py uid).2.2.2 =
        uid + n := by
  intro n
  induction n with
  | zero => intro cur py uid; simp [stepLoop]
  | succ n ih =>
      intro cur py uid
      simp only [stepLoop, make_event, ih]
      omega

/-- C6: no event emitted by the browsing-session generator ever has type
checkout or purchase — every browsing event's type is one of page_view,
view_product, add_to_cart. -/
theorem C6_browsing_no_checkout_purchase
    (pyS npS : RandStream) (baseSource : List MergedOrder)
    (customers : List CustomerRow) (customers_list product_ids : List String)
    (n : Nat) (st : RunState) :
    ∀ e ∈ ((browsingPhase pyS npS baseSource customers customers_list
        product_ids n st).1).flatten,
      e.event_type ∈ ["page_view", "view_product", "add_to_cart"] ∧
      e.event_type ≠ "checkout" ∧ e.event_type ≠ "purchase" := by
  induction n generalizing st with
  | zero => intro e he; simp [browsingPhase] at he
  | succ n ih =>
      intro e he
      simp only [browsingPhase, List.flatten_cons, List.mem_append] at he
      have hmem : e.event_type ∈ ["page_view", "view_product", "add_to_cart"] := by
        rcases he with he | he
        · simp only [browsingSession] at he
          exact stepLoop_types pyS _ _ _ _ _ _ _ _ _ _ _ _ e he
        · exact (ih _ e he).1
      refine ⟨hmem, ?_, ?_⟩ <;>
        (intro hc; rw [hc] at hmem; simp at hmem)

/-- Witness for C6: the first event of a concrete browsing run. -/
theorem C6_witness :
    ((((browsingPhase wStream wStream [wOrder] [⟨"c1", "u1", "sao paulo", "SP"⟩]
        ["c1"] ["p1", "p2"] 1 ⟨0, 0, 0⟩).1).flatten.getD 0 default).event_type ∈
      ["page_view", "view_product", "add_to_cart"]) ∧
    ((((browsingPhase wStream wStream [wOrder] [⟨"c1", "u1", "sao paulo", "SP"⟩]
        ["c1"] ["p1", "p2"] 1 ⟨0, 0, 0⟩).1).flatten.getD 0
      default).event_type ≠ "checkout") :=
  ⟨(C6_browsing_no_checkout_purchase wStream wStream [wOrder]
      [⟨"c1", "u1", "sao paulo", "SP"⟩] ["c1"] ["p1", "p2"] 1 ⟨0, 0, 0⟩
      _ (by decide)).1,
   (C6_browsing_no_checkout_purchase wStream wStream [wOrder]
      [⟨"c1", "u1", "sao paulo", "SP"⟩] ["c1"] ["p1", "p2"] 1 ⟨0, 0, 0⟩
      _ (by decide)).2.1⟩

/-! ### Session blocks: fresh session ids and per-session constants

Each generator phase appends one contiguous block of events per session,
every block carrying one session id drawn from the strictly increasing
uuid counter, and constant device/traffic/authentication/city/state
fields.  `Blocks lo hi sessions` captures this for a phase that starts
with uuid counter `lo` and ends at `hi`. -/

def Blocks : Nat → Nat → List (List Event) → Prop
  | lo, hi, [] => lo ≤ hi
  | lo, hi, s :: rest => ∃ sid mid, lo ≤ sid ∧ sid < mid ∧
      (∃ dev src auth city state,
        dev ∈ device_types ∧ src ∈ traffic_sources ∧
        ∀ e ∈ s, e.session_id = sid ∧ e.device_type = dev ∧
          e.traffic_source = src ∧ e.is_authenticated = auth ∧
          e.customer_city = city ∧ e.customer_state = state) ∧
      Blocks mid hi rest

theorem Blocks_le : ∀ (ss : List (List Event)) (lo hi : Nat),
    Blocks lo hi ss → lo ≤ hi := by
  intro ss
  induction ss with
  | nil => intro lo hi h; exact h
  | cons s rest ih =>
      intro lo hi h
      obtain ⟨sid, mid, h1, h2, -, h4⟩ := h
      have := ih mid hi h4
      omega

theorem Blocks_sid_bounds : ∀ (ss : List (List Event)) (lo hi : Nat),
    Blocks lo hi ss → ∀ e ∈ ss.flatten,
      lo ≤ e.session_id ∧ e.session_id < hi := by
  intro ss
  induction ss with
  | nil => intro lo hi h e he; simp at he
  | cons s rest ih =>
      intro lo hi h e he
      obtain ⟨sid, mid, h1, h2, ⟨dev, src, auth, city, state, -, -, hu⟩, h4⟩ := h
      simp only [List.flatten_cons, List.mem_append] at he
      rcases he with he | he
      · have := (hu e he).1
        have hmid := Blocks_le rest mid hi h4
        omega
      · have := ih mid hi h4 e he
        omega

theorem Blocks_consistent : ∀ (ss : List (List Event)) (lo hi : Nat),
    Blocks lo hi ss → ∀ e1 ∈ ss.flatten, ∀ e2 ∈ ss.flatten,
      e1.session_id = e2.session_id →
      e1.device_type = e2.device_type ∧
      e1.traffic_source = e2.traffic_source ∧
      e1.is_authenticated = e2.is_authenticated ∧
      e1.customer_city = e2.customer_city ∧
      e1.customer_state = e2.customer_state := by
  intro ss
  induction ss with
  | nil => intro lo hi h e1 he1; simp at he1
  | cons s rest ih =>
      intro lo hi h e1 he1 e2 he2 hsid
      obtain ⟨sid, mid, h1, h2, ⟨dev, src, auth, city, state, -, -, hu⟩, h4⟩ := h
      simp only [List.flatten_cons, List.mem_append] at he1 he2
      rcases he1 with he1 | he1 <;> rcases he2 with he2 | he2
      · obtain ⟨-, d1, t1, a1, c1, s1⟩ := hu e1 he1
        obtain ⟨-, d2, t2, a2, c2, s2⟩ := hu e2 he2
        rw [d1, t1, a1, c1, s1, d2, t2, a2, c2, s2]
        exact ⟨rfl, rfl, rfl, rfl, rfl⟩
      · exfalso
        have hb1 := (hu e1 he1).1
        have hb2 := Blocks_sid_bounds rest mid hi h4 e2 he2
        omega
      · exfalso
        have hb2 := (hu e2 he2).1
        have hb1 := Blocks_sid_bounds rest mid hi h4 e1 he1
        omega
      · exact ih mid hi h4 e1 he1 e2 he2 hsid

theorem Blocks_enums : ∀ (ss : List (List Event)) (lo hi : Nat),
    Blocks lo hi ss → ∀ e ∈ ss.flatten,
      e.device_type ∈ device_types ∧ e.traffic_source ∈ traffic_sources := by
  intro ss
  induction ss with
  | nil => intro lo hi h e he; simp at he
  | cons s rest ih =>
      intro lo hi h e he
      obtain ⟨sid, mid, h1, h2,
        ⟨dev, src, auth, city, state, hdev, hsrc, hu⟩, h4⟩ := h
      simp only [List.flatten_cons, List.mem_append] at he
      rcases he with he | he
      · obtain ⟨-, d1, t1, -, -, -⟩ := hu e he
        rw [d1, t1]
        exact ⟨hdev, hsrc⟩
      · exact ih mid hi h4 e he

theorem Blocks_append : ∀ (ss1 : List (List Event)) (lo mid hi : Nat)
    (ss2 : List (List Event)),
    Blocks lo mid ss1 → Blocks mid hi ss2 → Blocks lo hi (ss1 ++ ss2) := by
  intro ss1
  induction ss1 with
  | nil =>
      intro lo mid hi ss2 h1 h2
      rcases ss2 with _ | ⟨s, rest⟩
      · have := Blocks_le [] lo mid h1
        have := h2
        simp only [List.nil_append]
        show lo ≤ hi
        have := Blocks_le [] mid hi h2
        omega
      · obtain ⟨sid, mid2, hb1, hb2, hb3, hb4⟩ := h2
        have hlo : lo ≤ mid := h1
        exact ⟨sid, mid2, by omega, hb2, hb3, hb4⟩
  | cons s rest ih =>
      intro lo mid hi ss2 h1 h2
      obtain ⟨sid, mid1, hb1, hb2, hb3, hb4⟩ := h1
      exact ⟨sid, mid1, hb1, hb2, hb3, ih mid1 mid hi ss2 hb4 h2⟩

theorem funnelPhase_blocks (itemsTable : List ItemMerged)
    (pyS npS : RandStream) :
    ∀ (orders : List MergedOrder) (st : RunState),
      Blocks st.uid ((funnelPhase itemsTable pyS npS orders st).2).uid
        (funnelPhase itemsTable pyS npS orders st).1 := by
  intro orders
  induction orders with
  | nil => intro st; exact le_refl st.uid
  | cons o rest ih =>
      intro st
      rcases hfo : funnelOrder itemsTable pyS npS o st with _ | ⟨sess, st1⟩
      · simp only [funnelPhase, hfo]
        exact ih st
      · simp only [funnelPhase, hfo]
        obtain ⟨-, h2, -, -, -, -, -, h8⟩ :=
          funnelOrder_anatomy itemsTable pyS npS o st sess st1 hfo
        refine ⟨st.uid, st1.uid, le_refl _, by omega, ?_, ih st1⟩
        refine ⟨(choice device_types pyS st.py).1,
          (choice traffic_sources pyS (choice device_types pyS st.py).2).1, 1,
          o.customer_city.getD "", o.customer_state.getD "",
          choice_mem _ _ _ (by decide), choice_mem _ _ _ (by decide), ?_⟩
        intro e he
        obtain ⟨q1, q2, q3, q4, q5, q6, -⟩ := h2 e he
        exact ⟨q1, q2, q3, q4, q5, q6⟩

/-- Packaged form of stepLoop_fields for the Blocks predicate. -/
theorem stepLoop_block (pyS : RandStream) (pids : List String) (sid : Nat)
    (cid : Option String) (city state : Option String) (auth : Bool)
    (src dev : String) (hdev : dev ∈ device_types)
    (hsrc : src ∈ traffic_sources) (n : Nat) (cur : Int) (py uid : Nat) :
    ∃ d s a c st2, d ∈ device_types ∧ s ∈ traffic_sources ∧
      ∀ e ∈ (stepLoop pyS pids sid cid city state auth src dev n cur py
          uid).1,
        e.session_id = sid ∧ e.device_type = d ∧ e.traffic_source = s ∧
          e.is_authenticated = a ∧ e.customer_city = c ∧
          e.customer_state = st2 :=
  ⟨dev, src, if auth then 1 else 0, city.getD "", state.getD "", hdev, hsrc,
    fun e he =>
      stepLoop_fields pyS pids sid cid city state auth src dev n cur py uid
        e he⟩

/-- Fields and counter advance of one browsing session. -/
theorem browsingSession_block (pyS npS : RandStream)
    (baseSource : List MergedOrder) (customers : List CustomerRow)
    (customers_list product_ids : List String) (st : RunState) :
    (∃ dev src auth city state,
      dev ∈ device_types ∧ src ∈ traffic_sources ∧
      ∀ e ∈ (browsingSession pyS npS baseSource customers customers_list
          product_ids st).1,
        e.session_id = st.uid ∧ e.device_type = dev ∧
          e.traffic_source = src ∧ e.is_authenticated = auth ∧
          e.customer_city = city ∧ e.customer_state = state) ∧
    st.uid < ((browsingSession pyS npS baseSource customers customers_list
      product_ids st).2).uid := by
  constructor
  · simp only [browsingSession]
    exact stepLoop_block pyS _ _ _ _ _ _ _ _ (choice_mem _ _ _ (by decide))
      (choice_mem _ _ _ (by decide)) _ _ _ _
  · simp only [browsingSession, stepLoop_uid]
    omega

theorem browsingPhase_blocks (pyS npS : RandStream)
    (baseSource : List MergedOrder) (customers : List CustomerRow)
    (customers_list product_ids : List String) :
    ∀ (n : Nat) (st : RunState),
      Blocks st.uid
        ((browsingPhase pyS npS baseSource customers customers_list
          product_ids n st).2).uid
        (browsingPhase pyS npS baseSource customers customers_list
          product_ids n st).1 := by
  intro n
  induction n with
  | zero => intro st; exact le_refl st.uid
  | succ n ih =>
      intro st
      obtain ⟨⟨dev, src, auth, city, state, hdev, hsrc, hu⟩, hlt⟩ :=
        browsingSession_block pyS npS baseSource customers customers_list
          product_ids st
      simp only [browsingPhase]
      exact ⟨st.uid,
        ((browsingSession pyS npS baseSource customers customers_list
          product_ids st).2).uid, le_refl _, hlt,
        ⟨dev, src, auth, city, state, hdev, hsrc, hu⟩, ih _⟩

/-- C7: all events sharing a session_id (across both generators) have
identical device_type, traffic_source, is_authenticated, customer_city and
customer_state, and every event's device_type and traffic_source come from
the fixed enumerations. -/
theorem C7_session_constants (inp : Inputs) (cfg : Config)
    (pyS npS pdS : RandStream) (out : List Event)
    (h : pipeline inp cfg pyS npS pdS = .ok out) :
    (∀ e1 ∈ out, ∀ e2 ∈ out, e1.session_id = e2.session_id →
      e1.device_type = e2.device_type ∧
      e1.traffic_source = e2.traffic_source ∧
      e1.is_authenticated = e2.is_authenticated ∧
      e1.customer_city = e2.customer_city ∧
      e1.customer_state = e2.customer_state) ∧
    (∀ e ∈ out, e.device_type ∈ ["desktop", "mobile", "tablet"] ∧
      e.traffic_source ∈ ["direct", "seo", "ads", "email", "social"]) := by
  rcases hd : (delivered inp).isEmpty with _ | _
  case true =>
    rw [pipeline, hd] at h
    simp at h
  case false =>
  rw [pipeline, hd] at h
  simp only [Bool.false_eq_true, if_false, Except.ok.injEq] at h
  have hperm : List.Perm out ((funnelRun inp cfg pyS npS pdS).1 ++
      (browsingPhase pyS npS (baseOrdersSource inp cfg pdS) inp.customers
        (customersList inp) (productIds inp) cfg.numNonConvSessions
        (funnelRun inp cfg pyS npS pdS).2).1).flatten := by
    rw [← h]
    exact List.perm_insertionSort tsLe _
  have hblocks : Blocks 0
      ((browsingPhase pyS npS (baseOrdersSource inp cfg pdS) inp.customers
        (customersList inp) (productIds inp) cfg.numNonConvSessions
        (funnelRun inp cfg pyS npS pdS).2).2).uid
      ((funnelRun inp cfg pyS npS pdS).1 ++
       (browsingPhase pyS npS (baseOrdersSource inp cfg pdS) inp.customers
        (customersList inp) (productIds inp) cfg.numNonConvSessions
        (funnelRun inp cfg pyS npS pdS).2).1) := by
    have hf := funnelPhase_blocks
      (order_items_sample inp.order_items inp.products) pyS npS
      (cappedDelivered inp cfg pdS) ⟨0, 0, 0⟩
    have hb := browsingPhase_blocks pyS npS (baseOrdersSource inp cfg pdS)
      inp.customers (customersList inp) (productIds inp)
      cfg.numNonConvSessions (funnelRun inp cfg pyS npS pdS).2
    exact Blocks_append _ _ _ _ _ hf hb
  constructor
  · intro e1 he1 e2 he2 hsid
    exact Blocks_consistent _ _ _ hblocks e1 (hperm.mem_iff.mp he1) e2
      (hperm.mem_iff.mp he2) hsid
  · intro e he
    have := Blocks_enums _ _ _ hblocks e (hperm.mem_iff.mp he)
    simpa [device_types, traffic_sources] using this

/-- Witness for C7 at a concrete successful pipeline run: the first output
row's device_type and traffic_source are legal enum values. -/
theorem C7_witness :
    (((pipeline wInputs ⟨5, 1⟩ wStream wStream wStream).toOption.getD
        []).getD 0 default).device_type ∈ ["desktop", "mobile", "tablet"] ∧
    (((pipeline wInputs ⟨5, 1⟩ wStream wStream wStream).toOption.getD
        []).getD 0 default).traffic_source ∈
      ["direct", "seo", "ads", "email", "social"] :=
  (C7_session_constants wInputs ⟨5, 1⟩ wStream wStream wStream
    ((pipeline wInputs ⟨5, 1⟩ wStream wStream wStream).toOption.getD [])
    (by decide)).2 _ (by decide)

/-! ### Structure determinism of the funnel phase under a fixed seed

The python random module and the seed-42 pandas sample are seeded, so their
draw streams are identical across runs; only the numpy stream behind
oi.sample(random_state=None) differs.  The session structure — event count,
event-type ordering and relative timestamps — does not depend on that
stream. -/

/-- The structure of one session: its event types in order, and each
event's timestamp relative to the session's first event. -/
def sessionStructure (s : List Event) : List String × List Int :=
  (s.map (fun e => e.event_type),
   s.map (fun e => e.event_ts - (s.headD default).event_ts))

theorem funnelOrder_np_indep (itemsTable : List ItemMerged)
    (pyS np1 np2 : RandStream) (o : MergedOrder) (st : RunState) :
    (funnelOrder itemsTable pyS np1 o st).map
        (fun r => (sessionStructure r.1, r.2)) =
      (funnelOrder itemsTable pyS np2 o st).map
        (fun r => (sessionStructure r.1, r.2)) := by
  rcases hne : (itemsTable.filter (fun r => r.order_id == o.order_id)).isEmpty
    with _ | _
  case true => simp [funnelOrder, hne]
  case false =>
  simp only [funnelOrder, hne, Bool.false_eq_true, if_false, Option.map_some',
    Option.some.injEq, Prod.mk.injEq]
  set oi := itemsTable.filter (fun r => r.order_id == o.order_id) with hoi
  set dv := choice device_types pyS st.py with hdv
  set sv := choice traffic_sources pyS dv.2 with hsv
  set samp1 := sampleWR oi (min 3 oi.length) np1 st.np with hsamp1
  set samp2 := sampleWR oi (min 3 oi.length) np2 st.np with hsamp2
  set pt := o.order_purchase_timestamp.getD 0 with hptd
  set off := randint 5 40 pyS sv.2 with hoff
  set i1 := randint 5 40 pyS off.2 with hi1
  set e1 := make_event (st.uid + 1) "page_view" st.uid (pt - 60 * (off.1 : Int))
    (some o.customer_id) none none o.customer_city o.customer_state true
    (some sv.1) (some dv.1) with he1
  set vl1 := viewLoop pyS st.uid o.customer_id o.customer_city
    o.customer_state sv.1 dv.1 samp1.1 (pt - 60 * (off.1 : Int) + (i1.1 : Int))
    i1.2 e1.2 with hvl1
  set vl2 := viewLoop pyS st.uid o.customer_id o.customer_city
    o.customer_state sv.1 dv.1 samp2.1 (pt - 60 * (off.1 : Int) + (i1.1 : Int))
    i1.2 e1.2 with hvl2
  have hlen : samp1.1.length = samp2.1.length := by
    rw [hsamp1, hsamp2, sampleWR_length, sampleWR_length]
  obtain ⟨hts, hst⟩ := viewLoop_struct pyS st.uid o.customer_id
    o.customer_city o.customer_state sv.1 dv.1 samp1.1 samp2.1
    (pt - 60 * (off.1 : Int) + (i1.1 : Int)) i1.2 e1.2 hlen
  rw [← hvl1, ← hvl2] at hts hst
  have hcur : vl1.2.1 = vl2.2.1 := by rw [hst]
  have hpy : vl1.2.2.1 = vl2.2.2.1 := by rw [hst]
  have huid : vl1.2.2.2 = vl2.2.2.2 := by rw [hst]
  have hvlen : vl1.1.length = vl2.1.length := by
    rw [hvl1, hvl2, viewLoop_length, viewLoop_length, hlen]
  have hvtypes : vl1.1.map (fun e => e.event_type) =
      vl2.1.map (fun e => e.event_type) := by
    rw [hvl1, hvl2, viewLoop_types, viewLoop_types, hlen]
  constructor
  · -- equal session structure
    simp only [sessionStructure, Prod.mk.injEq, List.cons_append,
      List.map_cons, List.map_append, List.headD_cons]
    constructor
    · simp only [he1, make_event, hvtypes]
    · simp only [he1, make_event, hcur, hpy]
      have hrel : vl1.1.map (fun e => e.event_ts - (pt - 60 * (off.1 : Int))) =
          vl2.1.map (fun e => e.event_ts - (pt - 60 * (off.1 : Int))) := by
        have h1 := congrArg
          (List.map (fun t : Int => t - (pt - 60 * (off.1 : Int)))) hts
        rw [List.map_map, List.map_map] at h1
        simpa [Function.comp] using h1
      rw [hrel]
  · -- equal final run state
    simp only [make_event, randint]
    rw [huid, hpy, hsamp1, hsamp2, sampleWR_cursor, sampleWR_cursor]

theorem funnelPhase_np_indep (itemsTable : List ItemMerged)
    (pyS np1 np2 : RandStream) :
    ∀ (orders : List MergedOrder) (st : RunState),
      (funnelPhase itemsTable pyS np1 orders st).1.map sessionStructure =
        (funnelPhase itemsTable pyS np2 orders st).1.map sessionStructure ∧
      (funnelPhase itemsTable pyS np1 orders st).2 =
        (funnelPhase itemsTable pyS np2 orders st).2 := by
  intro orders
  induction orders with
  | nil => intro st; exact ⟨rfl, rfl⟩
  | cons o rest ih =>
      intro st
      have hord := funnelOrder_np_indep itemsTable pyS np1 np2 o st
      rcases h1 : funnelOrder itemsTable pyS np1 o st with _ | ⟨s1, st1⟩ <;>
        rcases h2 : funnelOrder itemsTable pyS np2 o st with _ | ⟨s2, st2⟩ <;>
        rw [h1, h2] at hord <;> simp only [Option.map_some', Option.map_none',
          Option.some.injEq, Prod.mk.injEq] at hord
      · simp only [funnelPhase, h1, h2]
        exact ih st
      · exact absurd hord (by simp)
      · exact absurd hord (by simp)
      · obtain ⟨hstruct, hstate⟩ := hord
        subst hstate
        simp only [funnelPhase, h1, h2]
        obtain ⟨ih1, ih2⟩ := ih st1
        refine ⟨?_, ih2⟩
        simp only [List.map_cons, hstruct, ih1]

/-- C4: with the same input tables and the same seed (hence the same python
random stream pyS and the same seeded pandas sampling stream pdS), two runs
of the purchase-funnel phase produce identical session structure — the same
event count per session, the same event-type ordering, and the same
relative timestamps within each session — even though the unseeded numpy
streams np1 and np2 behind oi.sample(random_state=None) may differ
arbitrarily between the runs. -/
theorem C4_funnel_structure_deterministic (inp : Inputs) (cfg : Config)
    (pyS pdS np1 np2 : RandStream) :
    ((funnelRun inp cfg pyS np1 pdS).1).map sessionStructure =
      ((funnelRun inp cfg pyS np2 pdS).1).map sessionStructure :=
  (funnelPhase_np_indep (order_items_sample inp.order_items inp.products) pyS
    np1 np2 (cappedDelivered inp cfg pdS) ⟨0, 0, 0⟩).1

/-! ### Sortedness of the serializer output (C5)

The final sort key is the ISO-8601 string of the timestamp.  The lemmas
below show that for timestamps in the representable range the lexicographic
order of those fixed-width strings coincides with numeric timestamp order:
the day number's civil date has strictly increasing (year, month, day)
tuples, each field is rendered zero-padded at fixed width, and the
field-by-field comparison therefore mirrors the numeric comparison. -/

/-- Days from 0000-03-01 to March 1 of year-of-era y (Hinnant's
days-from-civil counting inside one 400-year era). -/
def dys (y : Nat) : Nat := 365 * y + y / 4 - y / 100

/-- Numeric key of the month/day part of a day-of-year, with the
January/February year carry in the top digit. -/
def mdKey (doy : Nat) : Nat :=
  (if monF doy ≤ 2 then 1 else 0) * 10000 + monF doy * 100 + dayF doy

/-- Numeric yyyymmdd-style key of a day-of-era. -/
def ordD (doe : Nat) : Nat := yoeF doe * 10000 + mdKey (doyF doe)

/-- Numeric yyyymmdd key of the civil date of day number z. -/
def dateKey (z : Nat) : Nat := civilY z * 10000 + civilM z * 100 + civilD z

theorem dys_succ_lt (y : Nat) : dys y < dys (y + 1) := by
  simp only [dys]; omega

theorem dys_strictMono : StrictMono dys := strictMono_nat_of_lt_succ dys_succ_lt

theorem dys_step (y : Nat) : dys (y + 1) - dys y ≤ 366 := by
  simp only [dys]; omega

set_option maxHeartbeats 1000000 in
set_option maxRecDepth 4000 in
theorem mdKey_S1 : ∀ doy : Nat, doy < 365 → mdKey doy < mdKey (doy + 1) := by decide

theorem mdB (doy : Nat) (h : doy ≤ 365) :
    1 ≤ monF doy ∧ monF doy ≤ 12 ∧ 1 ≤ dayF doy ∧ dayF doy ≤ 31 ∧ mdKey doy ≤ 10229 := by
  simp only [mdKey, monF, dayF, mpF]
  split_ifs <;> omega

set_option maxHeartbeats 4000000 in
theorem yoeF_inv (doe y : Nat) (hy : y < 400) (h1 : dys y ≤ doe) (h2 : doe < dys (y + 1)) :
    yoeF doe = y := by
  simp only [yoeF, dys] at *
  interval_cases y <;> omega

theorem dys_cover : ∀ doe : Nat, doe < 146096 →
    ∃ y, y < 400 ∧ dys y ≤ doe ∧ doe < dys (y + 1)
  | 0, _ => ⟨0, by decide, by decide, by decide⟩
  | doe + 1, h => by
      obtain ⟨y, hy, hl, hu⟩ := dys_cover doe (by omega)
      by_cases hb : doe + 1 < dys (y + 1)
      · exact ⟨y, hy, by omega, hb⟩
      · have he : doe + 1 = dys (y + 1) := by omega
        refine ⟨y + 1, ?_, by omega, ?_⟩
        · by_contra hge
          have : dys 400 ≤ dys (y + 1) := dys_strictMono.monotone (by omega)
          have : (146096 : Nat) ≤ doe + 1 := by
            calc (146096 : Nat) = dys 400 := by decide
            _ ≤ dys (y + 1) := this
            _ = doe + 1 := he.symm
          omega
        · rw [he]; exact dys_succ_lt (y + 1)

theorem yoe_inv (doe : Nat) (h : doe < 146096) :
    yoeF doe < 400 ∧ dys (yoeF doe) ≤ doe ∧ doe < dys (yoeF doe + 1) := by
  obtain ⟨y, hy, hl, hu⟩ := dys_cover doe h
  have := yoeF_inv doe y hy hl hu
  rw [this]
  exact ⟨hy, hl, hu⟩

theorem doyF_eq (doe : Nat) : doyF doe = doe - dys (yoeF doe) := rfl

theorem edge_vals : yoeF 146096 = 399 ∧ doyF 146096 = 365 ∧ mdKey 0 = 301 ∧
    ordD 146095 < ordD 146096 ∧ ordD 146096 = 4000229 ∧ ordD 0 = 301 := by decide

theorem ordD_step (doe : Nat) (h : doe < 146096) : ordD doe < ordD (doe + 1) := by
  by_cases hlast : doe = 146095
  · subst hlast; exact edge_vals.2.2.2.1
  obtain ⟨hy, hl, hu⟩ := yoe_inv doe h
  have hstep := dys_step (yoeF doe)
  by_cases hb : doe + 1 < dys (yoeF doe + 1)
  · have hy2 : yoeF (doe + 1) = yoeF doe := yoeF_inv (doe + 1) (yoeF doe) hy (by omega) hb
    have hdoy : doyF (doe + 1) = doyF doe + 1 := by
      rw [doyF_eq, doyF_eq, hy2]; omega
    have hdlt : doyF doe < 365 := by
      rw [doyF_eq]; omega
    have := mdKey_S1 (doyF doe) hdlt
    simp only [ordD, hy2, hdoy]
    omega
  · have he : doe + 1 = dys (yoeF doe + 1) := by omega
    have hy400 : yoeF doe + 1 < 400 := by
      by_contra hge
      have h4 : dys 400 ≤ dys (yoeF doe + 1) := dys_strictMono.monotone (by omega)
      have : (146096 : Nat) = dys 400 := by decide
      omega
    have hy2 : yoeF (doe + 1) = yoeF doe + 1 := by
      refine yoeF_inv (doe + 1) (yoeF doe + 1) hy400 (by omega) ?_
      rw [he]; exact dys_succ_lt _
    have hdoy2 : doyF (doe + 1) = 0 := by
      rw [doyF_eq, hy2]; omega
    have hdoyb : doyF doe ≤ 365 := by
      rw [doyF_eq]; omega
    have hmd := (mdB (doyF doe) hdoyb).2.2.2.2
    simp only [ordD, hy2, hdoy2, edge_vals.2.2.1]
    omega

theorem doeOf_le (z : Nat) : doeOf z ≤ 146096 := by
  simp only [doeOf]; omega

theorem era_split (z : Nat) :
    (doeOf z < 146096 ∧ doeOf (z + 1) = doeOf z + 1 ∧ eraOf (z + 1) = eraOf z) ∨
    (doeOf z = 146096 ∧ doeOf (z + 1) = 0 ∧ eraOf (z + 1) = eraOf z + 1) := by
  simp only [doeOf, eraOf]; omega

theorem dateKey_eq (z : Nat) : dateKey z = 4000000 * eraOf z + ordD (doeOf z) := by
  simp only [dateKey, civilY, civilM, civilD, ordD, mdKey]
  ring

theorem dateKey_succ_lt (z : Nat) : dateKey z < dateKey (z + 1) := by
  rw [dateKey_eq, dateKey_eq]
  rcases era_split z with ⟨h1, h2, h3⟩ | ⟨h1, h2, h3⟩
  · rw [h2, h3]
    have := ordD_step (doeOf z) h1
    omega
  · rw [h1, h2, h3]
    have h4 := edge_vals.2.2.2.2.1
    have h5 := edge_vals.2.2.2.2.2
    omega

theorem dateKey_strictMono : StrictMono dateKey := strictMono_nat_of_lt_succ dateKey_succ_lt

theorem dateKey_top : dateKey 2932896 = 99991231 := by decide

theorem civilMD_bounds (z : Nat) :
    1 ≤ civilM z ∧ civilM z ≤ 12 ∧ 1 ≤ civilD z ∧ civilD z ≤ 31 := by
  have hdoe := doeOf_le z
  have hdoy : doyF (doeOf z) ≤ 365 := by
    by_cases h : doeOf z < 146096
    · obtain ⟨hy, hl, hu⟩ := yoe_inv (doeOf z) h
      have := dys_step (yoeF (doeOf z))
      rw [doyF_eq]; omega
    · have : doeOf z = 146096 := by omega
      rw [this, edge_vals.2.1]
  have := mdB _ hdoy
  exact ⟨this.1, this.2.1, this.2.2.1, this.2.2.2.1⟩

theorem civilY_le (z : Nat) (h : z ≤ 2932896) : civilY z ≤ 9999 := by
  have h1 : dateKey z ≤ 99991231 := by
    rcases Nat.lt_or_ge z 2932896 with h2 | h2
    · have := dateKey_strictMono h2
      rw [dateKey_top] at this; omega
    · have : z = 2932896 := by omega
      rw [this, dateKey_top]
  have h2 := civilMD_bounds z
  simp only [dateKey] at h1
  omega

theorem lexLe_refl : ∀ l : List Char, lexLe l l = true
  | [] => rfl
  | a :: as => by
      simp only [lexLe, lt_irrefl, if_false, if_neg (lt_irrefl a.toNat)]
      exact lexLe_refl as

theorem lexLe_append_congr : ∀ (l r1 r2 : List Char),
    lexLe (l ++ r1) (l ++ r2) = lexLe r1 r2
  | [], _, _ => rfl
  | a :: as, r1, r2 => by
      simp only [List.cons_append, lexLe, if_neg (lt_irrefl a.toNat)]
      exact lexLe_append_congr as r1 r2

theorem lexLe_dom : ∀ (l1 l2 : List Char), l1.length = l2.length →
    lexLe l1 l2 = true → lexLe l2 l1 = false → ∀ r1 r2 : List Char,
    lexLe (l1 ++ r1) (l2 ++ r2) = true ∧ lexLe (l2 ++ r2) (l1 ++ r1) = false
  | [], [], _, _, h', _, _ => by simp [lexLe] at h'
  | [], _ :: _, hlen, _, _, _, _ => by simp at hlen
  | _ :: _, [], hlen, _, _, _, _ => by simp at hlen
  | a :: as, b :: bs, hlen, h, h', r1, r2 => by
      simp only [lexLe] at h h'
      by_cases h1 : a.toNat < b.toNat
      · constructor
        · simp [List.cons_append, lexLe, h1]
        · simp [List.cons_append, lexLe, h1, Nat.lt_asymm h1,
            if_neg (Nat.lt_asymm h1)]
      · by_cases h2 : b.toNat < a.toNat
        · rw [if_neg h1, if_pos h2] at h
          exact absurd h (by simp)
        · rw [if_neg h1, if_neg h2] at h
          rw [if_neg h2, if_neg h1] at h'
          have ih := lexLe_dom as bs (by simpa using hlen) h h' r1 r2
          constructor
          · simp only [List.cons_append, lexLe, if_neg h1, if_neg h2]
            exact ih.1
          · simp only [List.cons_append, lexLe, if_neg h1, if_neg h2]
            exact ih.2

theorem pad_len : ∀ (w n : Nat), (pad w n).length = w
  | 0, _ => rfl
  | w + 1, n => by simp [pad, pad_len w]

theorem digit_lt : ∀ d1 : Nat, d1 < 10 → ∀ d2 : Nat, d2 < 10 → d1 < d2 →
    (Nat.digitChar d1).toNat < (Nat.digitChar d2).toNat := by decide

theorem pad_lt : ∀ (w a b : Nat), a < b → b < 10 ^ w →
    lexLe (pad w a) (pad w b) = true ∧ lexLe (pad w b) (pad w a) = false
  | 0, a, b, hab, hb => by omega
  | w + 1, a, b, hab, hb => by
      have hp : 0 < 10 ^ w := Nat.pos_pow_of_pos w (by omega)
      have hpow : (10 : Nat) ^ (w + 1) = 10 * 10 ^ w := by ring
      have hd2 : b / 10 ^ w < 10 := by
        rw [Nat.div_lt_iff_lt_mul hp, ← hpow]
        exact hb
      have hd1 : a / 10 ^ w < 10 := by
        rw [Nat.div_lt_iff_lt_mul hp, ← hpow]
        exact lt_trans hab hb
      have hdle : a / 10 ^ w ≤ b / 10 ^ w := Nat.div_le_div_right (le_of_lt hab)
      rcases lt_or_eq_of_le hdle with hdlt | hdeq
      · have hc := digit_lt _ hd1 _ hd2 hdlt
        constructor
        · simp [pad, lexLe, hc]
        · simp [pad, lexLe, hc, Nat.lt_asymm hc, if_neg (Nat.lt_asymm hc)]
      · have hm : a % 10 ^ w < b % 10 ^ w := by
          have e1 := Nat.div_add_mod a (10 ^ w)
          have e2 := Nat.div_add_mod b (10 ^ w)
          rw [hdeq] at e1
          generalize 10 ^ w * (b / 10 ^ w) = Q at e1 e2
          omega
        have hbm : b % 10 ^ w < 10 ^ w := Nat.mod_lt _ hp
        have ih := pad_lt w _ _ hm hbm
        constructor
        · simp only [pad, hdeq, lexLe, if_neg (lt_irrefl (Nat.digitChar (b / 10 ^ w)).toNat)]
          exact ih.1
        · simp only [pad, hdeq, lexLe, if_neg (lt_irrefl (Nat.digitChar (b / 10 ^ w)).toNat)]
          exact ih.2

/-- The fixed-width "YYYY-MM-DD HH:MM:SS" character shape produced by
isoformat, as a function of the six numeric fields. -/
def fmtC (Y M D H N S : Nat) : List Char :=
  pad 4 Y ++ ('-' :: (pad 2 M ++ ('-' :: (pad 2 D ++ (' ' :: (pad 2 H ++
    (':' :: (pad 2 N ++ (':' :: pad 2 S)))))))))

theorem isoChars_fmt (t : Nat) : isoChars t = fmtC (civilY (t / 86400))
    (civilM (t / 86400)) (civilD (t / 86400)) (t % 86400 / 3600)
    (t % 86400 % 3600 / 60) (t % 86400 % 60) := rfl

theorem lexLe_ccongr (l : List Char) (c : Char) (X1 X2 : List Char) :
    lexLe (l ++ (c :: X1)) (l ++ (c :: X2)) = lexLe X1 X2 := by
  rw [List.append_cons l c X1, List.append_cons l c X2]
  exact lexLe_append_congr (l ++ [c]) X1 X2

theorem pow4_eq : (10 : Nat) ^ 4 = 10000 := by norm_num

theorem pow2_eq : (10 : Nat) ^ 2 = 100 := by norm_num

theorem fmt_strict (Y1 M1 D1 H1 N1 S1 Y2 M2 D2 H2 N2 S2 : Nat)
    (hY2 : Y2 < 10000) (hM2 : M2 < 100) (hD2 : D2 < 100) (hH2 : H2 < 100)
    (hN2 : N2 < 100) (hS2 : S2 < 100)
    (hlex : Y1 < Y2 ∨ Y1 = Y2 ∧ (M1 < M2 ∨ M1 = M2 ∧ (D1 < D2 ∨ D1 = D2 ∧
      (H1 < H2 ∨ H1 = H2 ∧ (N1 < N2 ∨ N1 = N2 ∧ S1 < S2))))) :
    lexLe (fmtC Y1 M1 D1 H1 N1 S1) (fmtC Y2 M2 D2 H2 N2 S2) = true ∧
      lexLe (fmtC Y2 M2 D2 H2 N2 S2) (fmtC Y1 M1 D1 H1 N1 S1) = false := by
  simp only [fmtC]
  rcases hlex with hY | ⟨rfl, hM | ⟨rfl, hD | ⟨rfl, hH | ⟨rfl, hN | ⟨rfl, hS⟩⟩⟩⟩⟩
  · obtain ⟨hp, hq⟩ := pad_lt 4 Y1 Y2 hY (pow4_eq ▸ hY2)
    exact lexLe_dom _ _ (by rw [pad_len, pad_len]) hp hq _ _
  · rw [lexLe_ccongr, lexLe_ccongr]
    obtain ⟨hp, hq⟩ := pad_lt 2 M1 M2 hM (pow2_eq ▸ hM2)
    exact lexLe_dom _ _ (by rw [pad_len, pad_len]) hp hq _ _
  · rw [lexLe_ccongr, lexLe_ccongr, lexLe_ccongr, lexLe_ccongr]
    obtain ⟨hp, hq⟩ := pad_lt 2 D1 D2 hD (pow2_eq ▸ hD2)
    exact lexLe_dom _ _ (by rw [pad_len, pad_len]) hp hq _ _
  · rw [lexLe_ccongr, lexLe_ccongr, lexLe_ccongr, lexLe_ccongr, lexLe_ccongr,
      lexLe_ccongr]
    obtain ⟨hp, hq⟩ := pad_lt 2 H1 H2 hH (pow2_eq ▸ hH2)
    exact lexLe_dom _ _ (by rw [pad_len, pad_len]) hp hq _ _
  · rw [lexLe_ccongr, lexLe_ccongr, lexLe_ccongr, lexLe_ccongr, lexLe_ccongr,
      lexLe_ccongr, lexLe_ccongr, lexLe_ccongr]
    obtain ⟨hp, hq⟩ := pad_lt 2 N1 N2 hN (pow2_eq ▸ hN2)
    exact lexLe_dom _ _ (by rw [pad_len, pad_len]) hp hq _ _
  · rw [lexLe_ccongr, lexLe_ccongr, lexLe_ccongr, lexLe_ccongr, lexLe_ccongr,
      lexLe_ccongr, lexLe_ccongr, lexLe_ccongr, lexLe_ccongr, lexLe_ccongr]
    exact pad_lt 2 S1 S2 hS (pow2_eq ▸ hS2)

theorem iso_strict (t1 t2 : Nat) (h1 : t1 < 253402300800) (h2 : t2 < 253402300800)
    (h : t1 < t2) :
    lexLe (isoChars t1) (isoChars t2) = true ∧
      lexLe (isoChars t2) (isoChars t1) = false := by
  rw [isoChars_fmt, isoChars_fmt]
  have hz2 : t2 / 86400 ≤ 2932896 := by omega
  have hz1 : t1 / 86400 ≤ 2932896 := by omega
  have hY2 := civilY_le (t2 / 86400) hz2
  have hb1 := civilMD_bounds (t1 / 86400)
  have hb2 := civilMD_bounds (t2 / 86400)
  apply fmt_strict
  · omega
  · omega
  · omega
  · omega
  · omega
  · omega
  · rcases Nat.lt_or_ge (t1 / 86400) (t2 / 86400) with hz | hz
    · have hdk := dateKey_strictMono hz
      simp only [dateKey] at hdk
      omega
    · have hzeq : t1 / 86400 = t2 / 86400 := by
        have hd : t1 / 86400 ≤ t2 / 86400 := Nat.div_le_div_right (le_of_lt h)
        omega
      rw [hzeq]
      right
      refine ⟨rfl, ?_⟩
      right
      refine ⟨rfl, ?_⟩
      right
      refine ⟨rfl, ?_⟩
      omega

theorem isoLe_iff (t1 t2 : Nat) (h1 : t1 < 253402300800) (h2 : t2 < 253402300800) :
    (lexLe (isoChars t1) (isoChars t2) = true ↔ t1 ≤ t2) := by
  constructor
  · intro hlex
    by_contra hnot
    have h21 : t2 < t1 := by omega
    have hf := (iso_strict t2 t1 h2 h1 h21).2
    rw [hlex] at hf
    simp at hf
  · intro hle
    rcases Nat.eq_or_lt_of_le hle with rfl | hlt
    · exact lexLe_refl _
    · exact (iso_strict t1 t2 h1 h2 hlt).1

theorem char_toNat_inj (a b : Char) (h : a.toNat = b.toNat) : a = b := by
  apply Char.ext
  exact UInt32.toNat.inj h

theorem lexLe_iff_not_lex : ∀ l1 l2 : List Char,
    lexLe l1 l2 = true ↔ ¬ List.Lex (· < ·) l2 l1
  | [], l2 => by
      simp only [lexLe]
      constructor
      · intro _ h; cases h
      · intro _; trivial
  | a :: as, [] => by
      simp only [lexLe]
      constructor
      · intro h; cases h
      · intro h; exact absurd List.Lex.nil h
  | a :: as, b :: bs => by
      simp only [lexLe]
      by_cases h1 : a.toNat < b.toNat
      · rw [if_pos h1]
        constructor
        · intro _ hL
          cases hL with
          | rel hr =>
              have : b.toNat < a.toNat := hr
              omega
          | cons ht => omega
        · intro _; rfl
      · rw [if_neg h1]
        by_cases h2 : b.toNat < a.toNat
        · rw [if_pos h2]
          constructor
          · intro h; cases h
          · intro h
            exact absurd (List.Lex.rel (show b < a from h2)) h
        · rw [if_neg h2]
          have hab : a = b := char_toNat_inj a b (by omega)
          subst hab
          rw [lexLe_iff_not_lex as bs]
          constructor
          · intro h hL
            cases hL with
            | rel hr =>
                have : a.toNat < a.toNat := hr
                omega
            | cons ht => exact h ht
          · intro h hL
            exact h (List.Lex.cons hL)

theorem strLe_iff_lexLe (l1 l2 : List Char) :
    ((⟨l1⟩ : String) ≤ ⟨l2⟩) ↔ lexLe l1 l2 = true := by
  rw [lexLe_iff_not_lex, ← not_lt]
  exact not_congr String.lt_iff_toList_lt

/-- C5 (corrected): events_df collects every event from both generators
into one table and sort_values("event_ts") sorts it ascending by the
formatted timestamp string.  pandas guarantees a permutation of the rows
non-decreasing in that key and nothing more — the default kind is
quicksort, which is not stable, so the claim's "stable sort" part is not
a guarantee of the program.  For every output the sort may produce: it is
a permutation of the collected events, it is non-decreasing in the string
key, that key order is exactly String order of the ISO-8601 strings with
a space separator and, for timestamps in the formatter's range, exactly
numeric timestamp order, so the written table is non-decreasing in
event_ts. -/
theorem C5_serializer_sorted (evs out : List Event)
    (hs : sortValuesSpec evs out)
    (hr : ∀ e ∈ evs, 0 ≤ e.event_ts ∧ e.event_ts < MAXTS) :
    List.Perm out evs ∧
    out.Pairwise tsLe ∧
    (∀ a b : Event, tsLe a b ↔ isoformat a.event_ts ≤ isoformat b.event_ts) ∧
    (∀ e1, e1 ∈ evs → ∀ e2, e2 ∈ evs →
      (tsLe e1 e2 ↔ e1.event_ts ≤ e2.event_ts)) ∧
    out.Pairwise (fun a b => a.event_ts ≤ b.event_ts) := by
  obtain ⟨hperm, hsorted⟩ := hs
  have hnum : ∀ e1, e1 ∈ evs → ∀ e2, e2 ∈ evs →
      (tsLe e1 e2 ↔ e1.event_ts ≤ e2.event_ts) := by
    intro e1 he1 e2 he2
    obtain ⟨hge1, hlt1⟩ := hr e1 he1
    obtain ⟨hge2, hlt2⟩ := hr e2 he2
    have k1 : e1.event_ts.toNat < 253402300800 := by
      simp only [MAXTS] at hlt1; omega
    have k2 : e2.event_ts.toNat < 253402300800 := by
      simp only [MAXTS] at hlt2; omega
    have hiff := isoLe_iff e1.event_ts.toNat e2.event_ts.toNat k1 k2
    constructor
    · intro h
      have := hiff.mp h
      omega
    · intro h
      exact hiff.mpr (by omega)
  refine ⟨hperm, hsorted, ?_, hnum, ?_⟩
  · intro a b
    exact (strLe_iff_lexLe (tsKey a) (tsKey b)).symm
  · refine List.Pairwise.imp_of_mem ?_ hsorted
    intro a b ha hb hab
    exact (hnum a (hperm.mem_iff.mp ha) b (hperm.mem_iff.mp hb)).mp hab

/-- Concrete event list for the C5 witness: two rows with out-of-order
timestamps inside the formatter's range. -/
def wC5Events : List Event :=
  [⟨1, 1, "c1", "page_view", 1000000, "", "", "desktop", "direct", 1, "sao paulo", "SP"⟩,
   ⟨2, 1, "c1", "purchase", 500, "", "", "desktop", "direct", 1, "sao paulo", "SP"⟩]

/-- A sorted permutation of the witness list — an output the program's
sort may produce. -/
def wC5Sorted : List Event :=
  [⟨2, 1, "c1", "purchase", 500, "", "", "desktop", "direct", 1, "sao paulo", "SP"⟩,
   ⟨1, 1, "c1", "page_view", 1000000, "", "", "desktop", "direct", 1, "sao paulo", "SP"⟩]

/-- Witness for C5 at the concrete two-event list and its sorted
permutation. -/
theorem C5_witness :
    (sortValuesSpec wC5Events wC5Sorted ∧
      ∀ e ∈ wC5Events, 0 ≤ e.event_ts ∧ e.event_ts < MAXTS) ∧
    (List.Perm wC5Sorted wC5Events ∧
    wC5Sorted.Pairwise tsLe ∧
    (∀ a b : Event, tsLe a b ↔ isoformat a.event_ts ≤ isoformat b.event_ts) ∧
    (∀ e1, e1 ∈ wC5Events → ∀ e2, e2 ∈ wC5Events →
      (tsLe e1 e2 ↔ e1.event_ts ≤ e2.event_ts)) ∧
    wC5Sorted.Pairwise (fun a b => a.event_ts ≤ b.event_ts)) :=
  ⟨⟨by decide, by decide⟩,
    C5_serializer_sorted wC5Events wC5Sorted (by decide) (by decide)⟩

/-- Two rows with equal timestamps (hence equal string keys) and distinct
event ids, for the C5 stability counterexample. -/
def wC5TieA : Event :=
  ⟨1, 1, "c1", "page_view", 1000, "", "", "desktop", "direct", 1, "sao paulo", "SP"⟩

/-- Second of the two equal-timestamp rows. -/
def wC5TieB : Event :=
  ⟨2, 1, "c1", "view_product", 1000, "", "", "desktop", "direct", 1, "sao paulo", "SP"⟩

/-- C5 counterexample (to the "stable sort" part of the claim): stability
is not a consequence of what the program's sort guarantees.  The reversed
list [wC5TieB, wC5TieA] satisfies everything sort_values (default
kind='quicksort') promises about sorting [wC5TieA, wC5TieB] — it is a
sorted permutation — yet the ordered input run [wC5TieA, wC5TieB] does
not survive as a subsequence, so no stability property can be derived
from the code's sort. -/
theorem C5_counterexample :
    ¬ ∀ (evs out : List Event), sortValuesSpec evs out →
        ∀ c : List Event, c.Pairwise tsLe → c.Sublist evs → c.Sublist out := by
  intro h
  have := h [wC5TieA, wC5TieB] [wC5TieB, wC5TieA] (by decide)
    [wC5TieA, wC5TieB] (by decide) (by decide)
  exact absurd this (by decide)

end Clickstream
